import Mathlib

/-!
Shallow embedding of the Bech32 address codec of
`src/packages/shared/lib/core/utils/crypto.ts` (classes `Bech32` and
`Bech32Helper`), together with proofs of the specified properties.

JS strings are modelled as `List Char`, `Uint8Array`s as `List Nat` whose
elements are kept `< 256` (or `< 32` for 5-bit symbol arrays) by the
surrounding code; stores into a `Uint8Array` slot reduce `% 256`.  A JS
`throw` is an `Except.error`, and the `undefined` soft-failure result of
`decode`/`decodeTo5BitArray` is `Except.ok none`.
-/

namespace Bech32

/-- The 32-character bech32 alphabet, `Bech32.CHARSET` in `crypto.ts`. -/
def CHARSET : List Char := "qpzry9x8gf2tvdw0s3jn54khce6mua7l".toList

/-- The separator between human readable code and data, `Bech32.SEPARATOR`. -/
def SEPARATOR : Char := '1'

/-- The five generator constants of the BCH checksum, `Bech32.GENERATOR`. -/
def GENERATOR : List Nat := [0x3b6a57b2, 0x26508e6d, 0x1ea119fa, 0x3d4233dd, 0x2a1462b3]

/-- ASCII lowercasing of one character, modelling `toLowerCase` on the
ASCII range handled by the codec: code points 65-90 shift up by 32. -/
def lowerChar (c : Char) : Char :=
  if 65 ≤ c.toNat ∧ c.toNat ≤ 90 then Char.ofNat (c.toNat + 32) else c

/-- Model of `lastIndexOf` for a single character; `none` models `-1`. -/
def lastIdxOf : List Char → Char → Option Nat
  | [], _ => none
  | a :: as, c =>
    match lastIdxOf as c with
    | some i => some (i + 1)
    | none => if a = c then some 0 else none

/-- Model of `indexOf` on a character list; `none` models `-1`. -/
def idxOf? : List Char → Char → Option Nat
  | [], _ => none
  | a :: as, c => if a = c then some 0 else (idxOf? as c).map (· + 1)

/-- One iteration of the loop in `Bech32.polymod`: shift the 25 low bits of
the accumulator up by 5, mix in the next value, and XOR in each generator
constant whose corresponding bit of the old top 5 bits is set. -/
def polymodStep (chk v : Nat) : Nat :=
  (List.range 5).foldl
    (fun c i => if ((chk >>> 25) >>> i) &&& 1 = 1 then c ^^^ GENERATOR.getD i 0 else c)
    (((chk &&& 0x1ffffff) <<< 5) ^^^ v)

/-- Model of `Bech32.polymod`: fold `polymodStep` over the values starting
from the accumulator value 1. -/
def polymod (values : List Nat) : Nat := values.foldl polymodStep 1

/-- Model of `Bech32.humanReadablePartExpand`: the high 3 bits of every code
point, a zero, then the low 5 bits of every code point.  Entries are stored
into a `Uint8Array`, hence the `% 256` on the high part. -/
def humanReadablePartExpand (hrp : List Char) : List Nat :=
  hrp.map (fun c => (c.toNat >>> 5) % 256) ++ [0] ++ hrp.map (fun c => c.toNat &&& 31)

/-- Model of `Bech32.createChecksum`: six 5-bit slices, most significant
first, of `polymod (expand hrp ++ data ++ [0,0,0,0,0,0]) ^^^ 1`. -/
def createChecksum (hrp : List Char) (data : List Nat) : List Nat :=
  let mod := polymod (humanReadablePartExpand hrp ++ data ++ [0, 0, 0, 0, 0, 0]) ^^^ 1
  (List.range 6).map (fun i => (mod >>> (5 * (5 - i))) &&& 31)

/-- Model of `Bech32.verifyChecksum`: the polymod over the expanded human
readable code followed by the data (checksum included) must be exactly 1. -/
def verifyChecksum (hrp : List Char) (data : List Nat) : Bool :=
  polymod (humanReadablePartExpand hrp ++ data) = 1

/-- The distinct `throw` sites of `crypto.ts`, under the names the
specification gives them. -/
inductive CodecError where
  | missingSeparatorError : CodecError
  | separatorTooEarlyError : CodecError
  | insufficientDataError : CodecError
  | invalidCharacterError : Char → CodecError
  | excessPaddingError : CodecError
  | nonZeroPaddingError : CodecError
  | prefixMismatchError : List Char → List Char → CodecError
  | emptyPayloadError : CodecError
  deriving DecidableEq, Repr

/-- The inner `while` loop of `Bech32.convertBits`: while at least `toBits`
bits are buffered, emit the top `toBits` bits as one output unit.  Returns
the emitted units (most significant first) and the final buffered-bit
count. -/
def emitLoop (value toBits maxV : Nat) (bits : Nat) : List Nat × Nat :=
  if h : 0 < toBits ∧ toBits ≤ bits then
    let rest := emitLoop value toBits maxV (bits - toBits)
    (((value >>> (bits - toBits)) &&& maxV) :: rest.1, rest.2)
  else ([], bits)
termination_by bits
decreasing_by omega

/-- The main loop of `Bech32.convertBits` over the input units.  `value` is
the JS 32-bit accumulator: `value = (value << fromBits) | data[i]` truncates
to 32 bits, hence the `% 4294967296`.  Returns the emitted output units, the
final accumulator and the final buffered-bit count. -/
def convertBitsCore (fromBits toBits maxV : Nat) :
    List Nat → Nat → Nat → List Nat × Nat × Nat
  | [], value, bits => ([], value, bits)
  | d :: ds, value, bits =>
    let v := ((value <<< fromBits) % 4294967296) ||| d
    let em := emitLoop v toBits maxV (bits + fromBits)
    let rest := convertBitsCore fromBits toBits maxV ds v em.2
    (em.1 ++ rest.1, rest.2.1, rest.2.2)

/-- Model of `Bech32.convertBits`.  With `padding` the residue is flushed as
one final left-aligned unit; without it the residue must be a strict, all
zero tail or the call throws. -/
def convertBits (data : List Nat) (fromBits toBits : Nat) (padding : Bool) :
    Except CodecError (List Nat) :=
  let maxV := (1 <<< toBits) - 1
  let st := convertBitsCore fromBits toBits maxV data 0 0
  if padding then
    if 0 < st.2.2 then .ok (st.1 ++ [(st.2.1 <<< (toBits - st.2.2)) &&& maxV])
    else .ok st.1
  else if fromBits ≤ st.2.2 then .error .excessPaddingError
  else if (st.2.1 <<< (toBits - st.2.2)) &&& maxV ≠ 0 then .error .nonZeroPaddingError
  else .ok st.1

/-- Model of `Bech32.to5Bit`; the `padding = true` direction never throws,
so the error branch below is unreachable. -/
def to5Bit (bytes : List Nat) : List Nat :=
  match convertBits bytes 8 5 true with
  | .ok r => r
  | .error _ => []

/-- Model of `Bech32.from5Bit`. -/
def from5Bit (fiveBit : List Nat) : Except CodecError (List Nat) :=
  convertBits fiveBit 5 8 false

/-- Model of `Bech32.encode5BitArray`: human readable code, separator, one
alphabet character per data symbol, one per checksum symbol. -/
def encode5BitArray (hrp : List Char) (data5 : List Nat) : List Char :=
  hrp ++ [SEPARATOR] ++ data5.map (fun d => CHARSET.getD d ' ')
    ++ (createChecksum hrp data5).map (fun d => CHARSET.getD d ' ')

/-- Model of `Bech32.encode`. -/
def encode (hrp : List Char) (data : List Nat) : List Char :=
  encode5BitArray hrp (to5Bit data)

/-- The alphabet-lookup loop of `decodeTo5BitArray`: map every character
after the separator through `CHARSET.indexOf`, throwing on the first
character not in the charset. -/
def readDataChars : List Char → Except CodecError (List Nat)
  | [] => .ok []
  | c :: cs =>
    match idxOf? CHARSET c with
    | none => .error (.invalidCharacterError c)
    | some d => (readDataChars cs).map (fun ds => d :: ds)

/-- Model of `Bech32.decodeTo5BitArray`.  `Except.error` models a `throw`;
`Except.ok none` models the `undefined` soft failure on checksum mismatch;
`data.take (data.length - 6)` models `data.slice(0, -6)`. -/
def decodeTo5BitArray (bech : List Char) :
    Except CodecError (Option (List Char × List Nat)) :=
  let b := bech.map lowerChar
  match lastIdxOf b SEPARATOR with
  | none => .error .missingSeparatorError
  | some p =>
    if p < 1 then .error .separatorTooEarlyError
    else if b.length < p + 7 then .error .insufficientDataError
    else
      match readDataChars (b.drop (p + 1)) with
      | .error e => .error e
      | .ok data =>
        if verifyChecksum (b.take p) data then
          .ok (some (b.take p, data.take (data.length - 6)))
        else .ok none

/-- Model of `Bech32.decode`: decode to 5-bit symbols, then convert the
payload symbols back to bytes. -/
def decode (bech : List Char) : Except CodecError (Option (List Char × List Nat)) :=
  match decodeTo5BitArray bech with
  | .error e => .error e
  | .ok none => .ok none
  | .ok (some hd) =>
    match from5Bit hd.2 with
    | .error e => .error e
    | .ok bytes => .ok (some (hd.1, bytes))

/-- Model of `Bech32.matches`: the regular expression
`^<hrp>1[CHARSET]{6,}$` for a human readable code free of regex
metacharacters — the text starts with `hrp`, then the separator, then at
least six characters, all of them drawn from the alphabet.  (`matches` is a
reserved word in Lean, hence the longer name.) -/
def matchesPattern (hrp : List Char) (text : List Char) : Bool :=
  decide (text.take hrp.length = hrp) &&
    decide ((text.drop hrp.length).take 1 = [SEPARATOR]) &&
    (text.drop (hrp.length + 1)).all (fun c => (idxOf? CHARSET c).isSome) &&
    decide (6 ≤ (text.drop (hrp.length + 1)).length)

/-- The XOR of the generator constants selected by the bits of `top`: the
generator loop of `polymodStep`, run from accumulator 0.  Used to state the
closed form of `polymodStep`. -/
def genXor (top : Nat) : Nat :=
  (List.range 5).foldl
    (fun c i => if (top >>> i) &&& 1 = 1 then c ^^^ GENERATOR.getD i 0 else c) 0

/-- `k`-fold iteration of the zero-input polymod step: the effect, on the
final checksum accumulator, of an XOR difference injected `k` symbols before
the end of the input. -/
def gIter : Nat → Nat → Nat
  | 0, d => d
  | k + 1, d => gIter k (polymodStep d 0)

end Bech32

namespace Bech32Helper

/-- Model of `Bech32Helper.toBech32`: the address type is written into slot
0 of a fresh `Uint8Array`, hence the `% 256`; the address bytes follow. -/
def toBech32 (addressType : Nat) (addressBytes : List Nat) (hrp : List Char) : List Char :=
  Bech32.encode hrp (addressType % 256 :: addressBytes)

/-- Model of `Bech32Helper.fromBech32`: delegate to `Bech32.decode`,
propagate the soft failure, throw on wrong human readable code or empty
payload, otherwise split off the address-type byte. -/
def fromBech32 (bech32Text : List Char) (hrp : List Char) :
    Except Bech32.CodecError (Option (Nat × List Nat)) :=
  match Bech32.decode bech32Text with
  | .error e => .error e
  | .ok none => .ok none
  | .ok (some dec) =>
    if dec.1 ≠ hrp then .error (.prefixMismatchError hrp dec.1)
    else
      match dec.2 with
      | [] => .error .emptyPayloadError
      | t :: ts => .ok (some (t, ts))

end Bech32Helper

/-!
## Proof layer: XOR and bit arithmetic
-/

namespace Bech32

lemma xor_left_comm (a b c : Nat) : a ^^^ (b ^^^ c) = b ^^^ (a ^^^ c) := by
  rw [← Nat.xor_assoc, Nat.xor_comm a b, Nat.xor_assoc]

lemma shiftLeft_xor (a b n : Nat) : (a ^^^ b) <<< n = (a <<< n) ^^^ (b <<< n) := by
  apply Nat.eq_of_testBit_eq
  intro i
  simp [Bool.and_xor_distrib_left]

lemma shiftRight_xor (a b n : Nat) : (a ^^^ b) >>> n = (a >>> n) ^^^ (b >>> n) := by
  apply Nat.eq_of_testBit_eq
  intro i
  simp

lemma two_pow_mul_xor_add {b : Nat} (i : Nat) (hb : b < 2 ^ i) (a : Nat) :
    (2 ^ i * a) ^^^ b = 2 ^ i * a + b := by
  apply Nat.eq_of_testBit_eq
  intro j
  rw [Nat.testBit_mul_pow_two_add _ hb, Nat.testBit_xor, Nat.testBit_mul_pow_two]
  by_cases hj : j < i
  · simp [hj, Nat.not_le_of_lt hj]
  · have hbj : b < 2 ^ j :=
      lt_of_lt_of_le hb (Nat.pow_le_pow_right (by norm_num) (Nat.le_of_not_lt hj))
    simp [hj, Nat.le_of_not_lt hj, Nat.testBit_lt_two_pow hbj]

lemma shiftLeft_xor_add {b : Nat} (n : Nat) (hb : b < 2 ^ n) (a : Nat) :
    (a <<< n) ^^^ b = a <<< n + b := by
  rw [Nat.shiftLeft_eq, Nat.mul_comm, two_pow_mul_xor_add n hb]

lemma shiftRight25_lt {a : Nat} (h : a < 2 ^ 30) : a >>> 25 < 32 := by
  rw [Nat.shiftRight_eq_div_pow]
  omega

end Bech32

/-!
## Proof layer: closed form and linearity of the polymod step
-/

namespace Bech32

lemma foldl_if_xor (l : List Nat) (f : Nat → Prop) [DecidablePred f] (g : Nat → Nat) :
    ∀ a : Nat, l.foldl (fun c i => if f i then c ^^^ g i else c) a
      = a ^^^ l.foldl (fun c i => if f i then c ^^^ g i else c) 0 := by
  induction l with
  | nil => simp
  | cons x t ih =>
    intro a
    simp only [List.foldl_cons]
    by_cases hx : f x
    · simp only [hx, if_true]
      rw [ih (a ^^^ g x), ih (0 ^^^ g x), Nat.zero_xor, Nat.xor_assoc]
    · simp only [hx, if_false]
      rw [ih a, ih 0, Nat.zero_xor]

lemma polymodStep_eq (chk v : Nat) :
    polymodStep chk v = (((chk &&& 0x1ffffff) <<< 5) ^^^ v) ^^^ genXor (chk >>> 25) := by
  unfold polymodStep genXor
  rw [foldl_if_xor (List.range 5) (fun i => ((chk >>> 25) >>> i) &&& 1 = 1)]

lemma genXor_linear : ∀ t1 < 32, ∀ t2 < 32, genXor (t1 ^^^ t2) = genXor t1 ^^^ genXor t2 := by
  decide

lemma genXor_lt : ∀ t < 32, genXor t < 2 ^ 30 := by decide

lemma genXor_low5 : ∀ t < 32, genXor t &&& 31 = 0 → t = 0 := by decide

lemma genXor_zero : genXor 0 = 0 := by decide

end Bech32

namespace Bech32

lemma and_mask25_lt (chk : Nat) : chk &&& 0x1ffffff < 2 ^ 25 :=
  lt_of_le_of_lt Nat.and_le_right (by norm_num)

lemma shifted_mask25_lt (chk : Nat) : (chk &&& 0x1ffffff) <<< 5 < 2 ^ 30 := by
  rw [Nat.shiftLeft_eq]
  calc (chk &&& 0x1ffffff) * 2 ^ 5 < 2 ^ 25 * 2 ^ 5 :=
        (Nat.mul_lt_mul_right (by norm_num)).mpr (and_mask25_lt chk)
    _ = 2 ^ 30 := by norm_num

lemma polymodStep_lt {chk v : Nat} (hc : chk < 2 ^ 30) (hv : v < 2 ^ 30) :
    polymodStep chk v < 2 ^ 30 := by
  rw [polymodStep_eq]
  exact Nat.xor_lt_two_pow (Nat.xor_lt_two_pow (shifted_mask25_lt chk) hv)
    (genXor_lt _ (shiftRight25_lt hc))

lemma polymodStep_v (chk v : Nat) : polymodStep chk v = polymodStep chk 0 ^^^ v := by
  rw [polymodStep_eq, polymodStep_eq, Nat.xor_zero]
  rw [Nat.xor_assoc, Nat.xor_comm v, ← Nat.xor_assoc]

lemma polymodStep_xor {a b : Nat} (v : Nat) (ha : a < 2 ^ 30) (hb : b < 2 ^ 30) :
    polymodStep (a ^^^ b) v = polymodStep a v ^^^ polymodStep b 0 := by
  rw [polymodStep_eq, polymodStep_eq, polymodStep_eq]
  rw [Nat.and_xor_distrib_right, shiftLeft_xor, shiftRight_xor,
    genXor_linear _ (shiftRight25_lt ha) _ (shiftRight25_lt hb), Nat.xor_zero]
  simp [Nat.xor_assoc, Nat.xor_comm, xor_left_comm]

lemma shiftLeft5_and31 (x : Nat) : (x <<< 5) &&& 31 = 0 := by
  have h31 : (31 : Nat) = 2 ^ 5 - 1 := by norm_num
  rw [h31, Nat.and_pow_two_sub_one_eq_mod, Nat.shiftLeft_eq, Nat.mul_mod_left]

lemma polymodStep_zero_eq_zero {d : Nat} (hd : d < 2 ^ 30)
    (h : polymodStep d 0 = 0) : d = 0 := by
  rw [polymodStep_eq, Nat.xor_zero] at h
  have heq : (d &&& 0x1ffffff) <<< 5 = genXor (d >>> 25) := Nat.xor_eq_zero.mp h
  have h31 : genXor (d >>> 25) &&& 31 = 0 := by rw [← heq]; exact shiftLeft5_and31 _
  have htz : d >>> 25 = 0 := genXor_low5 _ (shiftRight25_lt hd) h31
  rw [htz, genXor_zero] at heq
  have hlow : d &&& 0x1ffffff = 0 := by
    rw [Nat.shiftLeft_eq] at heq
    norm_num at heq
    exact heq
  have hsmall : d < 2 ^ 25 := by
    rw [Nat.shiftRight_eq_div_pow] at htz
    omega
  have hmask : (0x1ffffff : Nat) = 2 ^ 25 - 1 := by norm_num
  rw [hmask, Nat.and_pow_two_sub_one_eq_mod, Nat.mod_eq_of_lt hsmall] at hlow
  exact hlow

end Bech32

namespace Bech32

lemma gIter_lt {d : Nat} (k : Nat) (hd : d < 2 ^ 30) : gIter k d < 2 ^ 30 := by
  induction k generalizing d with
  | zero => exact hd
  | succ k ih => exact ih (polymodStep_lt hd (by norm_num))

lemma gIter_ne_zero {d : Nat} (k : Nat) (hd : d < 2 ^ 30) (hne : d ≠ 0) :
    gIter k d ≠ 0 := by
  induction k generalizing d with
  | zero => exact hne
  | succ k ih =>
    exact ih (polymodStep_lt hd (by norm_num))
      (fun h => hne (polymodStep_zero_eq_zero hd h))

lemma polymodStep_zero_small {d : Nat} (hd : d < 2 ^ 25) : polymodStep d 0 = d <<< 5 := by
  rw [polymodStep_eq]
  have hmask : (0x1ffffff : Nat) = 2 ^ 25 - 1 := by norm_num
  have h1 : d &&& 0x1ffffff = d := by
    rw [hmask, Nat.and_pow_two_sub_one_eq_mod, Nat.mod_eq_of_lt hd]
  have h2 : d >>> 25 = 0 := by
    rw [Nat.shiftRight_eq_div_pow]
    exact Nat.div_eq_of_lt hd
  rw [h1, h2, genXor_zero, Nat.xor_zero, Nat.xor_zero]

lemma gIter_small : ∀ (k : Nat) {d : Nat}, d * 2 ^ (5 * k) < 2 ^ 30 →
    gIter k d = d <<< (5 * k)
  | 0, d, _ => by simp [gIter]
  | k + 1, d, h => by
    have h5 : d * 2 ^ 5 * 2 ^ (5 * k) < 2 ^ 30 := by
      rw [Nat.mul_assoc, ← Nat.pow_add]
      have : 5 + 5 * k = 5 * (k + 1) := by ring
      rw [this]
      exact h
    have hd25 : d < 2 ^ 25 := by
      have h1 : 1 ≤ 2 ^ (5 * k) := Nat.one_le_two_pow
      nlinarith [h5, h1]
    show gIter k (polymodStep d 0) = d <<< (5 * (k + 1))
    rw [polymodStep_zero_small hd25]
    have hrec : (d <<< 5) * 2 ^ (5 * k) < 2 ^ 30 := by
      rw [Nat.shiftLeft_eq]
      exact h5
    rw [gIter_small k hrec, ← Nat.shiftLeft_add]
    congr 1
    ring

lemma foldl_polymodStep_lt : ∀ (l : List Nat) (c : Nat), c < 2 ^ 30 →
    (∀ v ∈ l, v < 2 ^ 30) → l.foldl polymodStep c < 2 ^ 30
  | [], c, hc, _ => hc
  | v :: t, c, hc, hl => by
    simp only [List.foldl_cons]
    exact foldl_polymodStep_lt t _ (polymodStep_lt hc (hl v (by simp)))
      (fun x hx => hl x (by simp [hx]))

lemma foldl_polymodStep_xor : ∀ (l : List Nat) (c d : Nat), c < 2 ^ 30 → d < 2 ^ 30 →
    (∀ v ∈ l, v < 2 ^ 30) →
    l.foldl polymodStep (c ^^^ d) = l.foldl polymodStep c ^^^ gIter l.length d
  | [], c, d, _, _, _ => by simp [gIter]
  | v :: t, c, d, hc, hd, hl => by
    simp only [List.foldl_cons, List.length_cons]
    rw [polymodStep_xor v hc hd]
    rw [foldl_polymodStep_xor t _ _ (polymodStep_lt hc (hl v (by simp)))
      (polymodStep_lt hd (by norm_num)) (fun x hx => hl x (by simp [hx]))]
    rfl

end Bech32

/-!
## Proof layer: feeding a 30-bit value as six checksum symbols
-/

namespace Bech32

/-- The `k` five-bit slices of `m`, most significant first; proof-layer
notion matching the slicing loop of `createChecksum`. -/
def sliceSyms : Nat → Nat → List Nat
  | 0, _ => []
  | k + 1, m => ((m >>> (5 * k)) &&& 31) :: sliceSyms k (m % 2 ^ (5 * k))

lemma sliceSyms_length : ∀ k m, (sliceSyms k m).length = k
  | 0, _ => rfl
  | k + 1, m => by simp [sliceSyms, sliceSyms_length k]

lemma sliceSyms_lt : ∀ k m, ∀ x ∈ sliceSyms k m, x < 32
  | 0, _, x, hx => by simp [sliceSyms] at hx
  | k + 1, m, x, hx => by
    simp only [sliceSyms, List.mem_cons] at hx
    rcases hx with h | h
    · subst h
      exact lt_of_le_of_lt Nat.and_le_right (by norm_num)
    · exact sliceSyms_lt k _ x h

lemma feed_slice : ∀ (k : Nat) (m chk : Nat), m < 2 ^ (5 * k) → 5 * k ≤ 30 →
    chk < 2 ^ 30 →
    (sliceSyms k m).foldl polymodStep chk
      = (List.replicate k 0).foldl polymodStep chk ^^^ m
  | 0, m, chk, hm, _, _ => by
    interval_cases m
    simp [sliceSyms]
  | k + 1, m, chk, hm, hk, hchk => by
    have hklt : (5 : Nat) * k ≤ 30 := by omega
    have hdiv : m / 2 ^ (5 * k) < 2 ^ 5 := by
      apply Nat.div_lt_of_lt_mul
      rw [← Nat.pow_add]
      have h1 : 5 * k + 5 = 5 * (k + 1) := by ring
      rw [h1]
      exact hm
    have ht : (m >>> (5 * k)) &&& 31 = m / 2 ^ (5 * k) := by
      have h31 : (31 : Nat) = 2 ^ 5 - 1 := by norm_num
      rw [Nat.shiftRight_eq_div_pow, h31, Nat.and_pow_two_sub_one_eq_mod,
        Nat.mod_eq_of_lt hdiv]
    simp only [sliceSyms, List.foldl_cons, List.replicate_succ]
    rw [polymodStep_v chk ((m >>> (5 * k)) &&& 31)]
    have hstep : polymodStep chk 0 < 2 ^ 30 := polymodStep_lt hchk (by norm_num)
    have htlt : (m >>> (5 * k)) &&& 31 < 2 ^ 30 :=
      lt_of_le_of_lt Nat.and_le_right (by norm_num)
    rw [foldl_polymodStep_xor _ _ _ hstep htlt
      (fun x hx => lt_of_lt_of_le (sliceSyms_lt _ _ x hx) (by norm_num))]
    rw [sliceSyms_length]
    have hgi : gIter k ((m >>> (5 * k)) &&& 31) = ((m >>> (5 * k)) &&& 31) <<< (5 * k) := by
      apply gIter_small
      rw [ht]
      calc m / 2 ^ (5 * k) * 2 ^ (5 * k) ≤ m := Nat.div_mul_le_self m _
        _ < 2 ^ (5 * (k + 1)) := hm
        _ ≤ 2 ^ 30 := Nat.pow_le_pow_right (by norm_num) hk
    rw [hgi, feed_slice k (m % 2 ^ (5 * k)) (polymodStep chk 0)
      (Nat.mod_lt _ (Nat.two_pow_pos _)) hklt hstep]
    rw [Nat.xor_assoc]
    congr 1
    rw [Nat.xor_comm, shiftLeft_xor_add (5 * k) (Nat.mod_lt _ (Nat.two_pow_pos _)), ht,
      Nat.shiftLeft_eq, Nat.mul_comm, Nat.div_add_mod]

end Bech32

namespace Bech32

lemma mod_shift_and31 (s n x : Nat) (h : s + 5 ≤ n) :
    ((x % 2 ^ n) >>> s) &&& 31 = (x >>> s) &&& 31 := by
  have h31 : (31 : Nat) = 2 ^ 5 - 1 := by norm_num
  rw [h31, Nat.and_pow_two_sub_one_eq_mod, Nat.and_pow_two_sub_one_eq_mod,
    Nat.shiftRight_eq_div_pow, Nat.shiftRight_eq_div_pow]
  obtain ⟨t, ht⟩ : ∃ t, n = s + t := ⟨n - s, by omega⟩
  subst ht
  rw [Nat.pow_add, Nat.mod_mul_right_div_self]
  exact Nat.mod_mod_of_dvd _ (pow_dvd_pow 2 (by omega))

lemma sliceSyms_eq_map : ∀ (k : Nat) (m : Nat),
    sliceSyms k m = (List.range k).map (fun i => (m >>> (5 * (k - 1 - i))) &&& 31)
  | 0, m => by simp [sliceSyms]
  | k + 1, m => by
    rw [List.range_succ_eq_map, List.map_cons, List.map_map]
    show ((m >>> (5 * k)) &&& 31) :: sliceSyms k (m % 2 ^ (5 * k)) = _
    congr 1
    rw [sliceSyms_eq_map k]
    apply List.map_congr_left
    intro i hi
    rw [List.mem_range] at hi
    simp only [Function.comp]
    have h1 : k + 1 - 1 - (i + 1) = k - 1 - i := by omega
    rw [h1, mod_shift_and31 _ _ _ (by omega)]

end Bech32

namespace Bech32

lemma expand_lt (hrp : List Char) : ∀ v ∈ humanReadablePartExpand hrp, v < 256 := by
  intro v hv
  simp only [humanReadablePartExpand, List.mem_append, List.mem_map, List.mem_singleton] at hv
  rcases hv with (⟨c, _, hc⟩ | h) | ⟨c, _, hc⟩
  · rw [← hc]
    exact Nat.mod_lt _ (by norm_num)
  · omega
  · rw [← hc]
    exact lt_of_le_of_lt Nat.and_le_right (by norm_num)

lemma polymod_lt {values : List Nat} (hv : ∀ v ∈ values, v < 2 ^ 30) :
    polymod values < 2 ^ 30 :=
  foldl_polymodStep_lt values 1 (by norm_num) hv

lemma polymod_append (xs ys : List Nat) :
    polymod (xs ++ ys) = ys.foldl polymodStep (polymod xs) := by
  unfold polymod
  rw [List.foldl_append]

lemma createChecksum_eq_slice (hrp : List Char) (data : List Nat) :
    createChecksum hrp data
      = sliceSyms 6
          (polymod (humanReadablePartExpand hrp ++ data ++ [0, 0, 0, 0, 0, 0]) ^^^ 1) := by
  rw [sliceSyms_eq_map]
  simp only [createChecksum]

lemma createChecksum_lt (hrp : List Char) (data : List Nat) :
    ∀ x ∈ createChecksum hrp data, x < 32 := by
  intro x hx
  rw [createChecksum_eq_slice] at hx
  exact sliceSyms_lt _ _ x hx

lemma createChecksum_length (hrp : List Char) (data : List Nat) :
    (createChecksum hrp data).length = 6 := by
  rw [createChecksum_eq_slice, sliceSyms_length]

/-- Core checksum correctness: appending the created checksum makes the
polymod of expanded code plus data equal exactly 1. -/
lemma polymod_with_checksum (hrp : List Char) (data : List Nat)
    (hdata : ∀ x ∈ data, x < 256) :
    polymod (humanReadablePartExpand hrp ++ data ++ createChecksum hrp data) = 1 := by
  have hbase : ∀ v ∈ humanReadablePartExpand hrp ++ data, v < 2 ^ 30 := by
    intro v hv
    rcases List.mem_append.mp hv with h | h
    · exact lt_of_lt_of_le (expand_lt hrp v h) (by norm_num)
    · exact lt_of_lt_of_le (hdata v h) (by norm_num)
  have hchk0 : polymod (humanReadablePartExpand hrp ++ data) < 2 ^ 30 :=
    polymod_lt hbase
  have hp6 : polymod (humanReadablePartExpand hrp ++ data ++ [0, 0, 0, 0, 0, 0]) < 2 ^ 30 := by
    apply polymod_lt
    intro v hv
    rcases List.mem_append.mp hv with h | h
    · exact hbase v h
    · have hv0 : v = 0 := by simpa using h
      omega
  have hm : polymod (humanReadablePartExpand hrp ++ data ++ [0, 0, 0, 0, 0, 0]) ^^^ 1
      < 2 ^ 30 := Nat.xor_lt_two_pow hp6 (by norm_num)
  rw [createChecksum_eq_slice, polymod_append]
  rw [feed_slice 6 _ _ hm (by norm_num) hchk0]
  have hrepl : List.replicate 6 (0 : Nat) = [0, 0, 0, 0, 0, 0] := rfl
  rw [hrepl, ← polymod_append]
  exact Nat.xor_cancel_left _ _

/-- Core verification lemma: `verifyChecksum` accepts `data ++ createChecksum`. -/
lemma verifyChecksum_create (hrp : List Char) (data : List Nat)
    (hdata : ∀ x ∈ data, x < 256) :
    verifyChecksum hrp (data ++ createChecksum hrp data) = true := by
  unfold verifyChecksum
  rw [decide_eq_true_eq, ← List.append_assoc]
  exact polymod_with_checksum hrp data hdata

end Bech32

/-!
## Proof layer: values of digit strings, for the bit-rate converter
-/

namespace Bech32

/-- The numeric value of a big-endian digit string in base `2 ^ w`. -/
def valF (w : Nat) (l : List Nat) : Nat := l.foldl (fun acc d => acc * 2 ^ w + d) 0

lemma valF_foldl (w : Nat) : ∀ (l : List Nat) (a : Nat),
    l.foldl (fun acc d => acc * 2 ^ w + d) a = a * 2 ^ (w * l.length) + valF w l
  | [], a => by simp [valF]
  | d :: t, a => by
    simp only [List.foldl_cons, valF, List.length_cons]
    rw [valF_foldl w t (a * 2 ^ w + d), valF_foldl w t (0 * 2 ^ w + d)]
    have h : w * (t.length + 1) = w * t.length + w := by ring
    rw [h, pow_add]
    ring

lemma valF_cons (w d : Nat) (t : List Nat) :
    valF w (d :: t) = d * 2 ^ (w * t.length) + valF w t := by
  show (d :: t).foldl (fun acc d => acc * 2 ^ w + d) 0 = _
  simp only [List.foldl_cons]
  rw [valF_foldl]
  ring

lemma valF_append (w : Nat) (l1 l2 : List Nat) :
    valF w (l1 ++ l2) = valF w l1 * 2 ^ (w * l2.length) + valF w l2 := by
  show (l1 ++ l2).foldl _ 0 = _
  rw [List.foldl_append]
  exact valF_foldl w l2 _

lemma valF_lt (w : Nat) : ∀ (l : List Nat), (∀ d ∈ l, d < 2 ^ w) →
    valF w l < 2 ^ (w * l.length)
  | [], _ => by simp [valF]
  | d :: t, h => by
    rw [valF_cons]
    have h1 := valF_lt w t (fun x hx => h x (List.mem_cons_of_mem _ hx))
    have h2 := h d (List.mem_cons_self _ _)
    have hlen : w * (d :: t).length = w * t.length + w := by
      simp only [List.length_cons]
      ring
    rw [hlen, pow_add]
    calc d * 2 ^ (w * t.length) + valF w t
        < d * 2 ^ (w * t.length) + 2 ^ (w * t.length) := by omega
      _ = (d + 1) * 2 ^ (w * t.length) := by ring
      _ ≤ 2 ^ w * 2 ^ (w * t.length) := Nat.mul_le_mul_right _ h2
      _ = 2 ^ (w * t.length) * 2 ^ w := by ring

lemma valF_inj (w : Nat) : ∀ (l1 l2 : List Nat), l1.length = l2.length →
    (∀ d ∈ l1, d < 2 ^ w) → (∀ d ∈ l2, d < 2 ^ w) → valF w l1 = valF w l2 → l1 = l2
  | [], [], _, _, _, _ => rfl
  | d1 :: t1, d2 :: t2, hlen, h1, h2, hv => by
    simp only [List.length_cons, Nat.add_right_cancel_iff] at hlen
    rw [valF_cons, valF_cons, hlen] at hv
    have hx := Nat.two_pow_pos (w * t2.length)
    have hv1 : valF w t1 < 2 ^ (w * t2.length) := by
      rw [← hlen]
      exact valF_lt w t1 (fun x hx => h1 x (List.mem_cons_of_mem _ hx))
    have hv2 : valF w t2 < 2 ^ (w * t2.length) :=
      valF_lt w t2 (fun x hx => h2 x (List.mem_cons_of_mem _ hx))
    have hd : d1 = d2 := by
      have e1 : (d1 * 2 ^ (w * t2.length) + valF w t1) / 2 ^ (w * t2.length) = d1 := by
        rw [Nat.mul_comm, Nat.mul_add_div hx, Nat.div_eq_of_lt hv1]
        omega
      have e2 : (d2 * 2 ^ (w * t2.length) + valF w t2) / 2 ^ (w * t2.length) = d2 := by
        rw [Nat.mul_comm, Nat.mul_add_div hx, Nat.div_eq_of_lt hv2]
        omega
      rw [← e1, ← e2, hv]
    subst hd
    have ht : valF w t1 = valF w t2 := by
      have := Nat.add_left_cancel hv
      exact this
    rw [valF_inj w t1 t2 hlen (fun x hx => h1 x (List.mem_cons_of_mem _ hx))
      (fun x hx => h2 x (List.mem_cons_of_mem _ hx)) ht]

end Bech32

namespace Bech32

lemma emitLoop_eq (value tb maxV bits : Nat) :
    emitLoop value tb maxV bits =
      if 0 < tb ∧ tb ≤ bits then
        (((value >>> (bits - tb)) &&& maxV) :: (emitLoop value tb maxV (bits - tb)).1,
          (emitLoop value tb maxV (bits - tb)).2)
      else ([], bits) := by
  rw [emitLoop]
  exact rfl

lemma emitLoop_spec (tb maxV : Nat) (hto : 0 < tb) (hmax : maxV = 2 ^ tb - 1) :
    ∀ (bits value : Nat),
      (emitLoop value tb maxV bits).2 = bits % tb ∧
      tb * (emitLoop value tb maxV bits).1.length + bits % tb = bits ∧
      (∀ x ∈ (emitLoop value tb maxV bits).1, x < 2 ^ tb) ∧
      valF tb (emitLoop value tb maxV bits).1 * 2 ^ (bits % tb) + value % 2 ^ (bits % tb)
        = value % 2 ^ bits := by
  intro bits
  induction bits using Nat.strong_induction_on with
  | _ bits ih =>
    intro value
    by_cases hc : 0 < tb ∧ tb ≤ bits
    · obtain ⟨ih1, ih2, ih3, ih4⟩ := ih (bits - tb) (by omega) value
      rw [emitLoop_eq, if_pos hc]
      have hr : bits % tb = (bits - tb) % tb := Nat.mod_eq_sub_mod hc.2
      have hh : (value >>> (bits - tb)) &&& maxV = value / 2 ^ (bits - tb) % 2 ^ tb := by
        rw [hmax, Nat.shiftRight_eq_div_pow, Nat.and_pow_two_sub_one_eq_mod]
      refine ⟨by rw [ih1, hr], ?_, ?_, ?_⟩
      · simp only [List.length_cons]
        rw [hr]
        have hmul : tb * ((emitLoop value tb maxV (bits - tb)).1.length + 1)
            = tb * (emitLoop value tb maxV (bits - tb)).1.length + tb := by ring
        omega
      · intro x hx
        rcases List.mem_cons.mp hx with hx | hx
        · subst hx
          have := @Nat.and_le_right (value >>> (bits - tb)) maxV
          have h2 : (0 : Nat) < 2 ^ tb := Nat.two_pow_pos tb
          omega
        · exact ih3 x hx
      · rw [valF_cons, hr, hh]
        calc (value / 2 ^ (bits - tb) % 2 ^ tb
                * 2 ^ (tb * (emitLoop value tb maxV (bits - tb)).1.length)
              + valF tb (emitLoop value tb maxV (bits - tb)).1) * 2 ^ ((bits - tb) % tb)
            + value % 2 ^ ((bits - tb) % tb)
            = value / 2 ^ (bits - tb) % 2 ^ tb
                * 2 ^ (tb * (emitLoop value tb maxV (bits - tb)).1.length + (bits - tb) % tb)
              + (valF tb (emitLoop value tb maxV (bits - tb)).1 * 2 ^ ((bits - tb) % tb)
                + value % 2 ^ ((bits - tb) % tb)) := by
              rw [pow_add]
              ring
          _ = value / 2 ^ (bits - tb) % 2 ^ tb * 2 ^ (bits - tb) + value % 2 ^ (bits - tb) := by
              rw [ih2, ih4]
          _ = value % 2 ^ bits := by
              have hb : bits = (bits - tb) + tb := by omega
              have hfinal : value % 2 ^ bits
                  = value % 2 ^ (bits - tb)
                    + 2 ^ (bits - tb) * (value / 2 ^ (bits - tb) % 2 ^ tb) := by
                conv_lhs => rw [hb]
                rw [pow_add, Nat.mod_mul]
              rw [hfinal]
              ring
    · rw [emitLoop_eq, if_neg hc]
      have hlt : bits < tb := by omega
      have hm : bits % tb = bits := Nat.mod_eq_of_lt hlt
      refine ⟨by simp [hm], by simp [hm], by simp, ?_⟩
      simp [valF, hm]

end Bech32

namespace Bech32

lemma or_eq_add_of_dvd {a d n : Nat} (ha : 2 ^ n ∣ a) (hd : d < 2 ^ n) :
    a ||| d = a + d := by
  obtain ⟨q, hq⟩ := ha
  subst hq
  exact (Nat.mul_add_lt_is_or hd q).symm

lemma accumulator_step (fb bits value d : Nat) (hd : d < 2 ^ fb)
    (hb : bits + fb ≤ 32) :
    (((value <<< fb) % 4294967296) ||| d) % 2 ^ (bits + fb)
      = (value % 2 ^ bits) * 2 ^ fb + d := by
  have h32 : (4294967296 : Nat) = 2 ^ 32 := by norm_num
  have hdvd : 2 ^ fb ∣ (value <<< fb) % 4294967296 := by
    rw [h32, Nat.shiftLeft_eq]
    exact (Nat.dvd_mod_iff (pow_dvd_pow 2 (by omega))).mpr (Dvd.intro value (Nat.mul_comm _ _))
  rw [or_eq_add_of_dvd hdvd hd]
  have hK : (2 : Nat) ^ (bits + fb) ∣ 2 ^ 32 := pow_dvd_pow 2 hb
  have hA : ((value <<< fb) % 4294967296) % 2 ^ (bits + fb)
      = (value % 2 ^ bits) * 2 ^ fb := by
    rw [h32, Nat.mod_mod_of_dvd _ hK, Nat.shiftLeft_eq, pow_add, Nat.mul_mod_mul_right]
  have hBlt : (value % 2 ^ bits) * 2 ^ fb + d < 2 ^ (bits + fb) := by
    have hmlt : value % 2 ^ bits < 2 ^ bits := Nat.mod_lt _ (Nat.two_pow_pos _)
    calc (value % 2 ^ bits) * 2 ^ fb + d < (value % 2 ^ bits) * 2 ^ fb + 2 ^ fb := by omega
      _ = (value % 2 ^ bits + 1) * 2 ^ fb := by ring
      _ ≤ 2 ^ bits * 2 ^ fb := Nat.mul_le_mul_right _ (by omega)
      _ = 2 ^ (bits + fb) := (pow_add 2 bits fb).symm
  have hdK : d % 2 ^ (bits + fb) = d :=
    Nat.mod_eq_of_lt (lt_of_lt_of_le hd (Nat.pow_le_pow_right (by norm_num) (by omega)))
  rw [Nat.add_mod, hA, hdK, Nat.mod_eq_of_lt hBlt]

end Bech32

namespace Bech32

lemma convertBitsCore_spec (fb tb : Nat) (htb : 0 < tb) (hle : fb + tb ≤ 32) :
    ∀ (data : List Nat) (value bits : Nat), bits < tb → (∀ d ∈ data, d < 2 ^ fb) →
      (convertBitsCore fb tb (2 ^ tb - 1) data value bits).2.2
          = (bits + fb * data.length) % tb ∧
      tb * (convertBitsCore fb tb (2 ^ tb - 1) data value bits).1.length
          + (bits + fb * data.length) % tb = bits + fb * data.length ∧
      (∀ x ∈ (convertBitsCore fb tb (2 ^ tb - 1) data value bits).1, x < 2 ^ tb) ∧
      valF tb (convertBitsCore fb tb (2 ^ tb - 1) data value bits).1
          * 2 ^ ((bits + fb * data.length) % tb)
        + (convertBitsCore fb tb (2 ^ tb - 1) data value bits).2.1
            % 2 ^ ((bits + fb * data.length) % tb)
        = (value % 2 ^ bits) * 2 ^ (fb * data.length) + valF fb data
  | [], value, bits, hbits, _ => by
    have hm : bits % tb = bits := Nat.mod_eq_of_lt hbits
    simp only [convertBitsCore, List.length_nil, Nat.mul_zero, Nat.add_zero, hm]
    refine ⟨by trivial, by omega, by simp, ?_⟩
    simp [valF]
  | d :: ds, value, bits, hbits, hdata => by
    have hd : d < 2 ^ fb := hdata d (List.mem_cons_self _ _)
    have hds : ∀ x ∈ ds, x < 2 ^ fb := fun x hx => hdata x (List.mem_cons_of_mem _ hx)
    simp only [convertBitsCore]
    have hacc : (((value <<< fb) % 4294967296) ||| d) % 2 ^ (bits + fb)
        = (value % 2 ^ bits) * 2 ^ fb + d :=
      accumulator_step fb bits value d hd (by omega)
    have hA : (bits + fb * (ds.length + 1)) % tb
        = ((bits + fb) % tb + fb * ds.length) % tb := by
      rw [Nat.mod_add_mod]
      congr 1
      ring
    set v := ((value <<< fb) % 4294967296) ||| d with hv_def
    set em := emitLoop v tb (2 ^ tb - 1) (bits + fb) with hem_def
    set rest := convertBitsCore fb tb (2 ^ tb - 1) ds v em.2 with hrest_def
    obtain ⟨e1, e2, e3, e4⟩ := emitLoop_spec tb (2 ^ tb - 1) htb rfl (bits + fb) v
    rw [← hem_def] at e1 e2 e3 e4
    have hem2lt : em.2 < tb := by
      rw [e1]
      exact Nat.mod_lt _ htb
    obtain ⟨i1, i2, i3, i4⟩ := convertBitsCore_spec fb tb htb hle ds v em.2 hem2lt hds
    rw [← hrest_def] at i1 i2 i3 i4
    rw [e1] at i1 i2 i4
    simp only [List.length_cons]
    refine ⟨?_, ?_, ?_, ?_⟩
    · rw [i1, hA]
    · rw [hA]
      have hsum1 : tb * (em.1 ++ rest.1).length
          = tb * em.1.length + tb * rest.1.length := by
        rw [List.length_append]
        ring
      have hsum2 : fb * (ds.length + 1) = fb * ds.length + fb := by ring
      omega
    · intro x hx
      rcases List.mem_append.mp hx with hx | hx
      · exact e3 x hx
      · exact i3 x hx
    · rw [valF_append, valF_cons, hA]
      calc (valF tb em.1 * 2 ^ (tb * rest.1.length) + valF tb rest.1)
            * 2 ^ (((bits + fb) % tb + fb * ds.length) % tb)
          + rest.2.1 % 2 ^ (((bits + fb) % tb + fb * ds.length) % tb)
          = valF tb em.1
              * 2 ^ (tb * rest.1.length + ((bits + fb) % tb + fb * ds.length) % tb)
            + (valF tb rest.1 * 2 ^ (((bits + fb) % tb + fb * ds.length) % tb)
              + rest.2.1 % 2 ^ (((bits + fb) % tb + fb * ds.length) % tb)) := by
            rw [pow_add]
            ring
        _ = valF tb em.1 * 2 ^ ((bits + fb) % tb + fb * ds.length)
            + (v % 2 ^ ((bits + fb) % tb) * 2 ^ (fb * ds.length) + valF fb ds) := by
            rw [i2, i4]
        _ = (valF tb em.1 * 2 ^ ((bits + fb) % tb) + v % 2 ^ ((bits + fb) % tb))
              * 2 ^ (fb * ds.length) + valF fb ds := by
            rw [pow_add]
            ring
        _ = v % 2 ^ (bits + fb) * 2 ^ (fb * ds.length) + valF fb ds := by
            rw [e4]
        _ = ((value % 2 ^ bits) * 2 ^ fb + d) * 2 ^ (fb * ds.length) + valF fb ds := by
            rw [hacc]
        _ = value % 2 ^ bits * 2 ^ (fb * (ds.length + 1))
            + (d * 2 ^ (fb * ds.length) + valF fb ds) := by
            have hpw : fb * (ds.length + 1) = fb + fb * ds.length := by ring
            rw [hpw, pow_add]
            ring

end Bech32

namespace Bech32

lemma shift_mask_eq (x k w : Nat) (hk : k ≤ w) :
    (x <<< k) &&& (2 ^ w - 1) = (x % 2 ^ (w - k)) * 2 ^ k := by
  rw [Nat.shiftLeft_eq, Nat.and_pow_two_sub_one_eq_mod]
  have hw : w = (w - k) + k := by omega
  conv_lhs => rw [hw]
  rw [pow_add, Nat.mul_mod_mul_right]

lemma convertBits85_spec (bytes : List Nat) (hb : ∀ x ∈ bytes, x < 256) :
    ∃ syms, convertBits bytes 8 5 true = .ok syms ∧ (∀ x ∈ syms, x < 32) ∧
      5 * syms.length = 8 * bytes.length + (5 - (8 * bytes.length) % 5) % 5 ∧
      valF 5 syms = valF 8 bytes * 2 ^ ((5 - (8 * bytes.length) % 5) % 5) := by
  have hmax : ((1 <<< 5) - 1 : Nat) = 2 ^ 5 - 1 := by decide
  have hb' : ∀ x ∈ bytes, x < 2 ^ 8 := by
    intro x hx
    have := hb x hx
    omega
  have hrlt : 8 * bytes.length % 5 < 5 := Nat.mod_lt _ (by norm_num)
  obtain ⟨s1, s2, s3, s4⟩ := convertBitsCore_spec 8 5 (by norm_num) (by norm_num)
    bytes 0 0 (by norm_num) hb'
  rw [Nat.zero_add] at s1 s2 s4
  rw [Nat.pow_zero, Nat.mod_one, Nat.zero_mul, Nat.zero_add] at s4
  have h32 : ∀ x ∈ (convertBitsCore 8 5 (2 ^ 5 - 1) bytes 0 0).1, x < 32 := by
    intro x hx
    have := s3 x hx
    omega
  unfold convertBits
  rw [hmax, if_pos rfl, s1]
  by_cases h0 : 0 < 8 * bytes.length % 5
  · rw [if_pos h0]
    have hp : (5 - 8 * bytes.length % 5) % 5 = 5 - 8 * bytes.length % 5 :=
      Nat.mod_eq_of_lt (by omega)
    have hpad : ((convertBitsCore 8 5 (2 ^ 5 - 1) bytes 0 0).2.1
          <<< (5 - 8 * bytes.length % 5)) &&& (2 ^ 5 - 1)
        = ((convertBitsCore 8 5 (2 ^ 5 - 1) bytes 0 0).2.1 % 2 ^ (8 * bytes.length % 5))
            * 2 ^ (5 - 8 * bytes.length % 5) := by
      have h55 : 5 - (5 - 8 * bytes.length % 5) = 8 * bytes.length % 5 := by omega
      rw [shift_mask_eq _ _ _ (by omega), h55]
    refine ⟨_, rfl, ?_, ?_, ?_⟩
    · intro x hx
      rcases List.mem_append.mp hx with hx | hx
      · exact h32 x hx
      · rcases List.mem_singleton.mp hx with rfl
        have := @Nat.and_le_right
          ((convertBitsCore 8 5 (2 ^ 5 - 1) bytes 0 0).2.1
            <<< (5 - 8 * bytes.length % 5)) (2 ^ 5 - 1)
        omega
    · rw [List.length_append, List.length_singleton, hp]
      have hmul : 5 * ((convertBitsCore 8 5 (2 ^ 5 - 1) bytes 0 0).1.length + 1)
          = 5 * (convertBitsCore 8 5 (2 ^ 5 - 1) bytes 0 0).1.length + 5 := by ring
      omega
    · rw [valF_append, List.length_singleton, hp]
      have hv1 : valF 5 [((convertBitsCore 8 5 (2 ^ 5 - 1) bytes 0 0).2.1
            <<< (5 - 8 * bytes.length % 5)) &&& (2 ^ 5 - 1)]
          = ((convertBitsCore 8 5 (2 ^ 5 - 1) bytes 0 0).2.1
            <<< (5 - 8 * bytes.length % 5)) &&& (2 ^ 5 - 1) := by
        simp [valF]
      rw [hv1, hpad, ← s4]
      have hexp : (5 : Nat) * 1 = 8 * bytes.length % 5 + (5 - 8 * bytes.length % 5) := by
        omega
      rw [hexp, pow_add]
      ring
  · rw [if_neg h0]
    have hz : 8 * bytes.length % 5 = 0 := by omega
    rw [hz] at s2 s4
    rw [Nat.pow_zero, Nat.mod_one, Nat.mul_one, Nat.add_zero] at s4
    have h55 : ((5 : Nat) - 0) % 5 = 0 := rfl
    refine ⟨_, rfl, h32, ?_, ?_⟩
    · rw [hz, h55, Nat.add_zero]
      omega
    · rw [hz, h55, Nat.pow_zero, Nat.mul_one]
      exact s4

end Bech32

namespace Bech32

lemma to5Bit_spec (bytes : List Nat) (hb : ∀ x ∈ bytes, x < 256) :
    (∀ x ∈ to5Bit bytes, x < 32) ∧
    5 * (to5Bit bytes).length = 8 * bytes.length + (5 - (8 * bytes.length) % 5) % 5 ∧
    valF 5 (to5Bit bytes) = valF 8 bytes * 2 ^ ((5 - (8 * bytes.length) % 5) % 5) := by
  obtain ⟨syms, hok, h1, h2, h3⟩ := convertBits85_spec bytes hb
  have ht : to5Bit bytes = syms := by
    unfold to5Bit
    rw [hok]
  rw [ht]
  exact ⟨h1, h2, h3⟩

lemma from5Bit_to5Bit (bytes : List Nat) (hb : ∀ x ∈ bytes, x < 256) :
    from5Bit (to5Bit bytes) = .ok bytes := by
  obtain ⟨h1, h2, h3⟩ := to5Bit_spec bytes hb
  set p := (5 - 8 * bytes.length % 5) % 5 with hp_def
  have hp5 : p < 5 := by
    rw [hp_def]
    exact Nat.mod_lt _ (by norm_num)
  have hmax : ((1 <<< 8) - 1 : Nat) = 2 ^ 8 - 1 := by decide
  have h1' : ∀ x ∈ to5Bit bytes, x < 2 ^ 5 := by
    intro x hx
    have := h1 x hx
    omega
  have hb' : ∀ x ∈ bytes, x < 2 ^ 8 := by
    intro x hx
    have := hb x hx
    omega
  obtain ⟨s1, s2, s3, s4⟩ := convertBitsCore_spec 5 8 (by norm_num) (by norm_num)
    (to5Bit bytes) 0 0 (by norm_num) h1'
  rw [Nat.zero_add] at s1 s2 s4
  rw [Nat.pow_zero, Nat.mod_one, Nat.zero_mul, Nat.zero_add] at s4
  have hr : 5 * (to5Bit bytes).length % 8 = p := by
    rw [h2, Nat.add_comm, Nat.add_mul_mod_self_left]
    exact Nat.mod_eq_of_lt (by omega)
  rw [hr] at s1 s2 s4
  rw [h3] at s4
  have hR : (convertBitsCore 5 8 (2 ^ 8 - 1) (to5Bit bytes) 0 0).2.1 % 2 ^ p = 0 := by
    have hd1 : (2 : Nat) ^ p ∣ valF 8 bytes * 2 ^ p := dvd_mul_left _ _
    have hd2 : (2 : Nat) ^ p
        ∣ valF 8 (convertBitsCore 5 8 (2 ^ 8 - 1) (to5Bit bytes) 0 0).1 * 2 ^ p :=
      dvd_mul_left _ _
    have hsub : (convertBitsCore 5 8 (2 ^ 8 - 1) (to5Bit bytes) 0 0).2.1 % 2 ^ p
        = valF 8 bytes * 2 ^ p
          - valF 8 (convertBitsCore 5 8 (2 ^ 8 - 1) (to5Bit bytes) 0 0).1 * 2 ^ p := by
      omega
    rw [hsub]
    refine Nat.eq_zero_of_dvd_of_lt (Nat.dvd_sub' hd1 hd2) ?_
    rw [← hsub]
    exact Nat.mod_lt _ (Nat.two_pow_pos p)
  have hval : valF 8 (convertBitsCore 5 8 (2 ^ 8 - 1) (to5Bit bytes) 0 0).1
      = valF 8 bytes := by
    have h4 : valF 8 (convertBitsCore 5 8 (2 ^ 8 - 1) (to5Bit bytes) 0 0).1 * 2 ^ p
        = valF 8 bytes * 2 ^ p := by
      omega
    exact Nat.eq_of_mul_eq_mul_right (Nat.two_pow_pos p) h4
  have hlen : (convertBitsCore 5 8 (2 ^ 8 - 1) (to5Bit bytes) 0 0).1.length
      = bytes.length := by
    omega
  have heq : (convertBitsCore 5 8 (2 ^ 8 - 1) (to5Bit bytes) 0 0).1 = bytes :=
    valF_inj 8 _ _ hlen s3 hb' hval
  unfold from5Bit convertBits
  rw [hmax, if_neg Bool.false_ne_true, s1]
  rw [if_neg (by omega : ¬ 5 ≤ p)]
  have hzero : ((convertBitsCore 5 8 (2 ^ 8 - 1) (to5Bit bytes) 0 0).2.1 <<< (8 - p))
      &&& (2 ^ 8 - 1) = 0 := by
    rw [shift_mask_eq _ _ _ (by omega)]
    have h8p : 8 - (8 - p) = p := by omega
    rw [h8p, hR, Nat.zero_mul]
  rw [if_neg (by rw [hzero]; exact fun h => h rfl)]
  rw [heq]

end Bech32

/-!
## Proof layer: alphabet, lowercasing and separator location
-/

namespace Bech32

lemma lowerChar_eq_self {c : Char} (h : c.toNat < 65 ∨ 90 < c.toNat) :
    lowerChar c = c := by
  unfold lowerChar
  rw [if_neg (by omega)]

lemma lowerChar_lower {c : Char} (h1 : 97 ≤ c.toNat) (h2 : c.toNat ≤ 122) :
    lowerChar c = c :=
  lowerChar_eq_self (by omega)

lemma sep_not_mem_charset : SEPARATOR ∉ CHARSET := by decide

lemma charset_getD_mem : ∀ d < 32, CHARSET.getD d ' ' ∈ CHARSET := by decide

lemma charset_idx_getD : ∀ d < 32, idxOf? CHARSET (CHARSET.getD d ' ') = some d := by
  decide

lemma charset_lower : ∀ c ∈ CHARSET, lowerChar c = c := by decide

lemma charset_not_sep : ∀ c ∈ CHARSET, c ≠ SEPARATOR := by decide

lemma charset_lower_range : ∀ c ∈ CHARSET, c.toNat < 65 ∨ 90 < c.toNat := by decide

lemma idxOf?_isSome : ∀ (l : List Char) (c : Char), (idxOf? l c).isSome ↔ c ∈ l
  | [], c => by simp [idxOf?]
  | a :: t, c => by
    unfold idxOf?
    by_cases hac : a = c
    · simp [hac]
    · rw [if_neg hac]
      have hmap : (Option.map (fun x => x + 1) (idxOf? t c)).isSome
          = (idxOf? t c).isSome := by
        cases idxOf? t c <;> rfl
      rw [hmap, idxOf?_isSome t c, List.mem_cons]
      constructor
      · exact Or.inr
      · rintro (h | h)
        · exact absurd h.symm hac
        · exact h

lemma idxOf?_getD : ∀ (l : List Char) (c : Char) (d : Nat),
    idxOf? l c = some d → l.getD d ' ' = c
  | [], c, d => by simp [idxOf?]
  | a :: t, c, d => by
    unfold idxOf?
    by_cases hac : a = c
    · rw [if_pos hac]
      intro h
      cases h
      simpa using hac
    · rw [if_neg hac]
      intro h
      rw [Option.map_eq_some'] at h
      obtain ⟨d', hd', rfl⟩ := h
      simpa using idxOf?_getD t c d' hd'

lemma idxOf?_lt_length : ∀ (l : List Char) (c : Char) (d : Nat),
    idxOf? l c = some d → d < l.length
  | [], c, d => by simp [idxOf?]
  | a :: t, c, d => by
    unfold idxOf?
    by_cases hac : a = c
    · rw [if_pos hac]
      intro h
      cases h
      simp
    · rw [if_neg hac]
      intro h
      rw [Option.map_eq_some'] at h
      obtain ⟨d', hd', rfl⟩ := h
      have := idxOf?_lt_length t c d' hd'
      simp only [List.length_cons]
      omega

lemma lastIdxOf_eq_none : ∀ (l : List Char) (c : Char), c ∉ l → lastIdxOf l c = none
  | [], c, _ => rfl
  | a :: t, c, h => by
    unfold lastIdxOf
    rw [lastIdxOf_eq_none t c (fun hm => h (List.mem_cons_of_mem _ hm))]
    have hne : ¬ a = c := fun hac => h (by rw [← hac]; exact List.mem_cons_self a t)
    rw [if_neg hne]

lemma lastIdxOf_none_iff : ∀ (l : List Char) (c : Char), lastIdxOf l c = none ↔ c ∉ l
  | [], c => by simp [lastIdxOf]
  | a :: t, c => by
    unfold lastIdxOf
    constructor
    · intro h
      cases ht : lastIdxOf t c with
      | some i =>
        rw [ht] at h
        cases h
      | none =>
        rw [ht] at h
        by_cases hac : a = c
        · rw [if_pos hac] at h
          cases h
        · intro hm
          rcases List.mem_cons.mp hm with hm | hm
          · exact hac hm.symm
          · exact ((lastIdxOf_none_iff t c).mp ht) hm
    · intro hm
      rw [lastIdxOf_eq_none t c (fun h => hm (List.mem_cons_of_mem _ h))]
      have hne : ¬ a = c := fun hac => hm (by rw [← hac]; exact List.mem_cons_self a t)
      rw [if_neg hne]

lemma lastIdxOf_sep_append : ∀ (hrp rest : List Char), SEPARATOR ∉ rest →
    lastIdxOf (hrp ++ SEPARATOR :: rest) SEPARATOR = some hrp.length
  | [], rest, h => by
    show lastIdxOf (SEPARATOR :: rest) SEPARATOR = some 0
    unfold lastIdxOf
    rw [lastIdxOf_eq_none rest SEPARATOR h]
    rfl
  | a :: t, rest, h => by
    show lastIdxOf (a :: (t ++ SEPARATOR :: rest)) SEPARATOR = some (t.length + 1)
    unfold lastIdxOf
    rw [lastIdxOf_sep_append t rest h]

lemma lastIdxOf_eq_some : ∀ (l : List Char) (c : Char) (p : Nat),
    lastIdxOf l c = some p ↔
      (l.get? p = some c ∧ ∀ j, p < j → l.get? j ≠ some c)
  | [], c, p => by simp [lastIdxOf]
  | a :: t, c, p => by
    unfold lastIdxOf
    cases ht : lastIdxOf t c with
    | some i =>
      obtain ⟨hg, ha⟩ := (lastIdxOf_eq_some t c i).mp ht
      constructor
      · intro hp
        cases hp
        refine ⟨by simpa using hg, ?_⟩
        intro j hj
        cases j with
        | zero => omega
        | succ j' =>
          rw [List.get?_cons_succ]
          exact ha j' (by omega)
      · rintro ⟨hget, hafter⟩
        cases p with
        | zero =>
          exfalso
          exact hafter (i + 1) (by omega) (by simpa using hg)
        | succ p' =>
          rw [List.get?_cons_succ] at hget
          have : lastIdxOf t c = some p' := by
            rw [lastIdxOf_eq_some t c p']
            refine ⟨hget, ?_⟩
            intro j hj
            have := hafter (j + 1) (by omega)
            simpa using this
          rw [ht] at this
          cases this
          rfl
    | none =>
      have hnm : c ∉ t := (lastIdxOf_none_iff t c).mp ht
      by_cases hac : a = c
      · rw [if_pos hac]
        constructor
        · intro hp
          cases hp
          refine ⟨by simpa using hac, ?_⟩
          intro j hj
          cases j with
          | zero => omega
          | succ j' =>
            rw [List.get?_cons_succ]
            intro hc
            exact hnm (List.get?_mem hc)
        · rintro ⟨hget, hafter⟩
          cases p with
          | zero => rfl
          | succ p' =>
            rw [List.get?_cons_succ] at hget
            exact absurd (List.get?_mem hget) hnm
      · rw [if_neg hac]
        constructor
        · intro hp
          cases hp
        · rintro ⟨hget, hafter⟩
          cases p with
          | zero =>
            rw [List.get?_cons_zero] at hget
            cases hget
            exact absurd rfl hac
          | succ p' =>
            rw [List.get?_cons_succ] at hget
            exact absurd (List.get?_mem hget) hnm

end Bech32

namespace Bech32

lemma readDataChars_map : ∀ (syms : List Nat), (∀ d ∈ syms, d < 32) →
    readDataChars (syms.map (fun d => CHARSET.getD d ' ')) = .ok syms
  | [], _ => rfl
  | d :: t, h => by
    have hd : d < 32 := h d (List.mem_cons_self _ _)
    simp only [List.map_cons, readDataChars]
    rw [charset_idx_getD d hd,
      readDataChars_map t (fun x hx => h x (List.mem_cons_of_mem _ hx))]
    rfl

lemma readDataChars_ok : ∀ (l : List Char), (∀ c ∈ l, c ∈ CHARSET) →
    ∃ ds, readDataChars l = .ok ds ∧ ds.length = l.length ∧ ∀ d ∈ ds, d < 32
  | [], _ => ⟨[], rfl, rfl, by simp⟩
  | c :: t, h => by
    have hc : c ∈ CHARSET := h c (List.mem_cons_self _ _)
    obtain ⟨ds, hok, hlen, hlt⟩ :=
      readDataChars_ok t (fun x hx => h x (List.mem_cons_of_mem _ hx))
    have hsome : (idxOf? CHARSET c).isSome := (idxOf?_isSome CHARSET c).mpr hc
    obtain ⟨d, hd⟩ := Option.isSome_iff_exists.mp hsome
    refine ⟨d :: ds, ?_, by simp [hlen], ?_⟩
    · simp only [readDataChars]
      rw [hd, hok]
      rfl
    · intro x hx
      rcases List.mem_cons.mp hx with hx | hx
      · subst hx
        have hl := idxOf?_lt_length CHARSET c x hd
        have h32 : CHARSET.length = 32 := rfl
        omega
      · exact hlt x hx

lemma readDataChars_err : ∀ (l : List Char) (e : CodecError),
    readDataChars l = .error e → ∃ c, c ∈ l ∧ e = .invalidCharacterError c ∧ c ∉ CHARSET
  | [], e => by simp [readDataChars]
  | c :: t, e => by
    simp only [readDataChars]
    cases hi : idxOf? CHARSET c with
    | none =>
      intro h
      cases h
      refine ⟨c, List.mem_cons_self _ _, rfl, ?_⟩
      intro hm
      have := (idxOf?_isSome CHARSET c).mpr hm
      rw [hi] at this
      cases this
    | some d =>
      cases hr : readDataChars t with
      | error e' =>
        intro h
        simp only [Except.map] at h
        injection h with he
        subst he
        obtain ⟨c', hc', he', hnm⟩ := readDataChars_err t e' hr
        exact ⟨c', List.mem_cons_of_mem _ hc', he', hnm⟩
      | ok ds =>
        intro h
        simp only [Except.map] at h
        cases h

end Bech32

namespace Bech32

lemma map_self {f : Char → Char} : ∀ l : List Char, (∀ c ∈ l, f c = c) → l.map f = l
  | [], _ => rfl
  | a :: t, h => by
    rw [List.map_cons, h a (List.mem_cons_self _ _),
      map_self t (fun c hc => h c (List.mem_cons_of_mem _ hc))]

lemma lowerChar_sep : lowerChar SEPARATOR = SEPARATOR := by decide

/-- Evaluation of `decodeTo5BitArray` on a well-shaped input: lowercase
human readable code, separator, then only alphabet characters, at least
six of them. -/
lemma decodeTo5BitArray_structured (hrp rest : List Char) (ds : List Nat)
    (hl : ∀ c ∈ hrp, lowerChar c = c) (hrp0 : hrp ≠ [])
    (hcs : ∀ c ∈ rest, c ∈ CHARSET) (h6 : 6 ≤ rest.length)
    (hread : readDataChars rest = .ok ds) :
    decodeTo5BitArray (hrp ++ SEPARATOR :: rest)
      = if verifyChecksum hrp ds then .ok (some (hrp, ds.take (ds.length - 6)))
        else .ok none := by
  have hsep_not : SEPARATOR ∉ rest := fun hm => charset_not_sep _ (hcs _ hm) rfl
  have hmaplower : (hrp ++ SEPARATOR :: rest).map lowerChar = hrp ++ SEPARATOR :: rest := by
    rw [List.map_append, List.map_cons, lowerChar_sep, map_self hrp hl,
      map_self rest (fun c hc => charset_lower c (hcs c hc))]
  have hdrop : (hrp ++ SEPARATOR :: rest).drop (hrp.length + 1) = rest := by
    have hsplit : hrp ++ SEPARATOR :: rest = (hrp ++ [SEPARATOR]) ++ rest := by
      simp
    rw [hsplit]
    have hlen1 : (hrp ++ [SEPARATOR]).length = hrp.length + 1 := by simp
    rw [← hlen1, List.drop_left]
  have htake : (hrp ++ SEPARATOR :: rest).take hrp.length = hrp := List.take_left _ _
  have hplt : ¬ hrp.length < 1 := by
    have := List.length_pos.mpr hrp0
    omega
  have hllt : ¬ (hrp ++ SEPARATOR :: rest).length < hrp.length + 7 := by
    rw [List.length_append, List.length_cons]
    omega
  simp only [decodeTo5BitArray]
  rw [hmaplower, lastIdxOf_sep_append hrp rest hsep_not]
  simp only [if_neg hplt, if_neg hllt, hdrop, hread, htake]

end Bech32

namespace Bech32

lemma encode_shape (hrp : List Char) (bytes : List Nat) :
    encode hrp bytes
      = hrp ++ SEPARATOR
          :: ((to5Bit bytes ++ createChecksum hrp (to5Bit bytes)).map
              (fun d => CHARSET.getD d ' ')) := by
  unfold encode encode5BitArray
  rw [List.map_append]
  simp [List.append_assoc]

/-- Full round trip on the codec: decoding an encoded string returns the
human readable code and the original bytes. -/
lemma decode_encode (hrp : List Char) (bytes : List Nat)
    (hhrp : ∀ c ∈ hrp, 97 ≤ c.toNat ∧ c.toNat ≤ 122) (hrp0 : hrp ≠ [])
    (hb : ∀ x ∈ bytes, x < 256) :
    decode (encode hrp bytes) = .ok (some (hrp, bytes)) := by
  obtain ⟨h32, hlen5, hval5⟩ := to5Bit_spec bytes hb
  have hcs32 : ∀ x ∈ createChecksum hrp (to5Bit bytes), x < 32 :=
    createChecksum_lt hrp (to5Bit bytes)
  have hall32 : ∀ x ∈ to5Bit bytes ++ createChecksum hrp (to5Bit bytes), x < 32 := by
    intro x hx
    rcases List.mem_append.mp hx with hx | hx
    · exact h32 x hx
    · exact hcs32 x hx
  have hcslen : (createChecksum hrp (to5Bit bytes)).length = 6 :=
    createChecksum_length hrp (to5Bit bytes)
  have hl : ∀ c ∈ hrp, lowerChar c = c := fun c hc =>
    lowerChar_lower (hhrp c hc).1 (hhrp c hc).2
  have hcsmem : ∀ c ∈ (to5Bit bytes ++ createChecksum hrp (to5Bit bytes)).map
      (fun d => CHARSET.getD d ' '), c ∈ CHARSET := by
    intro c hc
    obtain ⟨d, hd, rfl⟩ := List.mem_map.mp hc
    exact charset_getD_mem d (hall32 d hd)
  have h6 : 6 ≤ ((to5Bit bytes ++ createChecksum hrp (to5Bit bytes)).map
      (fun d => CHARSET.getD d ' ')).length := by
    rw [List.length_map, List.length_append, hcslen]
    omega
  have hread : readDataChars ((to5Bit bytes ++ createChecksum hrp (to5Bit bytes)).map
      (fun d => CHARSET.getD d ' '))
      = .ok (to5Bit bytes ++ createChecksum hrp (to5Bit bytes)) :=
    readDataChars_map _ hall32
  have hverify : verifyChecksum hrp
      (to5Bit bytes ++ createChecksum hrp (to5Bit bytes)) = true :=
    verifyChecksum_create hrp (to5Bit bytes) (fun x hx => by
      have := h32 x hx
      omega)
  have htake : (to5Bit bytes ++ createChecksum hrp (to5Bit bytes)).take
      ((to5Bit bytes ++ createChecksum hrp (to5Bit bytes)).length - 6) = to5Bit bytes := by
    rw [List.length_append, hcslen]
    have harith : (to5Bit bytes).length + 6 - 6 = (to5Bit bytes).length := by omega
    rw [harith, List.take_left]
  unfold decode
  rw [encode_shape,
    decodeTo5BitArray_structured hrp _ (to5Bit bytes ++ createChecksum hrp (to5Bit bytes))
      hl hrp0 hcsmem h6 hread]
  rw [if_pos hverify, htake]
  simp only []
  rw [from5Bit_to5Bit bytes hb]

end Bech32

namespace Bech32

/-- Changing one symbol of the checksummed stream always changes the final
polymod value away from 1: the BCH step map is injective. -/
lemma polymod_substitution (E u w : List Nat) (dold dnew : Nat)
    (hE : ∀ v ∈ E, v < 2 ^ 30) (hu : ∀ v ∈ u, v < 2 ^ 30) (hw : ∀ v ∈ w, v < 2 ^ 30)
    (hdo : dold < 32) (hdn : dnew < 32) (hne : dnew ≠ dold)
    (hold : polymod (E ++ (u ++ dold :: w)) = 1) :
    polymod (E ++ (u ++ dnew :: w)) ≠ 1 := by
  have hEu : ∀ v ∈ E ++ u, v < 2 ^ 30 := by
    intro v hv
    rcases List.mem_append.mp hv with h | h
    · exact hE v h
    · exact hu v h
  have hchk0 : polymod (E ++ u) < 2 ^ 30 := polymod_lt hEu
  have hassoc : ∀ d : Nat, E ++ (u ++ d :: w) = (E ++ u) ++ d :: w := by simp
  rw [hassoc] at hold
  rw [hassoc, polymod_append]
  rw [polymod_append] at hold
  simp only [List.foldl_cons] at hold ⊢
  have hsw : polymodStep (polymod (E ++ u)) dnew
      = polymodStep (polymod (E ++ u)) dold ^^^ (dold ^^^ dnew) := by
    rw [polymodStep_v _ dnew, polymodStep_v _ dold, Nat.xor_assoc, Nat.xor_cancel_left]
  rw [hsw]
  have hδlt : dold ^^^ dnew < 2 ^ 30 :=
    Nat.xor_lt_two_pow (lt_of_lt_of_le hdo (by norm_num)) (lt_of_lt_of_le hdn (by norm_num))
  have hstep_lt : polymodStep (polymod (E ++ u)) dold < 2 ^ 30 :=
    polymodStep_lt hchk0 (lt_of_lt_of_le hdo (by norm_num))
  rw [foldl_polymodStep_xor w _ _ hstep_lt hδlt hw, hold]
  intro hcontra
  have hδne : dold ^^^ dnew ≠ 0 := fun h => hne (Nat.xor_eq_zero.mp h).symm
  have h1 := Nat.xor_cancel_left 1 (gIter w.length (dold ^^^ dnew))
  rw [hcontra] at h1
  have hg0 : gIter w.length (dold ^^^ dnew) = 0 := by simpa using h1.symm
  exact gIter_ne_zero w.length hδlt hδne hg0

lemma readDataChars_ok_all : ∀ (l : List Char) (ds : List Nat),
    readDataChars l = .ok ds → ∀ c ∈ l, c ∈ CHARSET
  | [], ds, _ => by simp
  | c :: t, ds, h => by
    intro x hx
    simp only [readDataChars] at h
    cases hi : idxOf? CHARSET c with
    | none =>
      rw [hi] at h
      cases h
    | some d =>
      rw [hi] at h
      cases hr : readDataChars t with
      | error e =>
        rw [hr] at h
        simp only [Except.map] at h
        cases h
      | ok ds' =>
        rcases List.mem_cons.mp hx with hx | hx
        · subst hx
          exact (idxOf?_isSome CHARSET x).mp (by rw [hi]; rfl)
        · exact readDataChars_ok_all t ds' hr x hx

lemma emitLoop_out (value tb maxV : Nat) : ∀ (bits : Nat),
    ∀ x ∈ (emitLoop value tb maxV bits).1, x ≤ maxV := by
  intro bits
  induction bits using Nat.strong_induction_on with
  | _ bits ih =>
    intro x hx
    rw [emitLoop_eq] at hx
    by_cases hc : 0 < tb ∧ tb ≤ bits
    · rw [if_pos hc] at hx
      rcases List.mem_cons.mp hx with hx | hx
      · subst hx
        exact Nat.and_le_right
      · exact ih (bits - tb) (by omega) x hx
    · rw [if_neg hc] at hx
      cases hx

lemma convertBitsCore_out (fb tb maxV : Nat) : ∀ (data : List Nat) (value bits : Nat),
    ∀ x ∈ (convertBitsCore fb tb maxV data value bits).1, x ≤ maxV
  | [], value, bits => by simp [convertBitsCore]
  | d :: ds, value, bits => by
    intro x hx
    simp only [convertBitsCore] at hx
    rcases List.mem_append.mp hx with hx | hx
    · exact emitLoop_out _ _ _ _ x hx
    · exact convertBitsCore_out fb tb maxV ds _ _ x hx

end Bech32

/-!
## Claim theorems
-/

namespace Bech32

/-- C1: for every human readable code matching `[a-z]+` and every byte
sequence of length 0 to 128 whose entries are bytes, decoding the encoding
succeeds and returns exactly the code and the original bytes — the
encode/decode pair is a round-trip identity. -/
theorem encode_decode_roundtrip (hrp : List Char) (bytes : List Nat)
    (hhrp : ∀ c ∈ hrp, 97 ≤ c.toNat ∧ c.toNat ≤ 122) (hrp0 : hrp ≠ [])
    (hb : ∀ x ∈ bytes, x < 256) (hlen : bytes.length ≤ 128) :
    decode (encode hrp bytes) = .ok (some (hrp, bytes)) :=
  decode_encode hrp bytes hhrp hrp0 hb

theorem encode_decode_roundtrip_witness :
    decode (encode ['i', 'o', 't', 'a'] [0]) = .ok (some (['i', 'o', 't', 'a'], [0])) :=
  encode_decode_roundtrip ['i', 'o', 't', 'a'] [0] (by decide) (by decide) (by decide)
    (by decide)

/-- C2: `createChecksum hrp data` is the 30-bit value
`polymod (expand hrp ++ data ++ [0,0,0,0,0,0]) ^^^ 1` sliced into six 5-bit
symbols most significant first, and appending those six symbols makes
verification hold: the polymod over the expanded code, the data and the
checksum equals exactly 1, so `verifyChecksum` returns true. -/
theorem createChecksum_spec (hrp : List Char) (data : List Nat)
    (hdata : ∀ x ∈ data, x < 32) :
    (createChecksum hrp data
      = [(polymod (humanReadablePartExpand hrp ++ data ++ [0, 0, 0, 0, 0, 0]) ^^^ 1) >>> 25 &&& 31,
         (polymod (humanReadablePartExpand hrp ++ data ++ [0, 0, 0, 0, 0, 0]) ^^^ 1) >>> 20 &&& 31,
         (polymod (humanReadablePartExpand hrp ++ data ++ [0, 0, 0, 0, 0, 0]) ^^^ 1) >>> 15 &&& 31,
         (polymod (humanReadablePartExpand hrp ++ data ++ [0, 0, 0, 0, 0, 0]) ^^^ 1) >>> 10 &&& 31,
         (polymod (humanReadablePartExpand hrp ++ data ++ [0, 0, 0, 0, 0, 0]) ^^^ 1) >>> 5 &&& 31,
         (polymod (humanReadablePartExpand hrp ++ data ++ [0, 0, 0, 0, 0, 0]) ^^^ 1) >>> 0 &&& 31]) ∧
    polymod (humanReadablePartExpand hrp ++ data ++ createChecksum hrp data) = 1 ∧
    verifyChecksum hrp (data ++ createChecksum hrp data) = true := by
  have hdata' : ∀ x ∈ data, x < 256 := by
    intro x hx
    have := hdata x hx
    omega
  refine ⟨?_, polymod_with_checksum hrp data hdata', verifyChecksum_create hrp data hdata'⟩
  simp only [createChecksum]
  norm_num [List.range_succ]

theorem createChecksum_spec_witness :
    verifyChecksum ['a'] ([0] ++ createChecksum ['a'] [0]) = true :=
  (createChecksum_spec ['a'] [0] (by decide)).2.2

end Bech32

namespace Bech32

lemma decodeTo5BitArray_eval (bech : List Char) :
    decodeTo5BitArray bech =
      match lastIdxOf (bech.map lowerChar) SEPARATOR with
      | none => .error .missingSeparatorError
      | some p =>
        if p < 1 then .error .separatorTooEarlyError
        else if (bech.map lowerChar).length < p + 7 then .error .insufficientDataError
        else
          match readDataChars ((bech.map lowerChar).drop (p + 1)) with
          | .error e => .error e
          | .ok data =>
            if verifyChecksum ((bech.map lowerChar).take p) data then
              .ok (some ((bech.map lowerChar).take p, data.take (data.length - 6)))
            else .ok none := rfl

/-- C3: an input that passes all structural checks of `decodeTo5BitArray`
(separator present beyond position 0, at least six symbols after it, all of
them in the alphabet) but fails the checksum yields the soft failure
`ok none` and does not throw, while any structural violation throws. -/
theorem soft_failure_vs_structural_throw :
    (∀ (bech : List Char) (p : Nat) (ds : List Nat),
        lastIdxOf (bech.map lowerChar) SEPARATOR = some p → 1 ≤ p →
        p + 7 ≤ (bech.map lowerChar).length →
        readDataChars ((bech.map lowerChar).drop (p + 1)) = .ok ds →
        verifyChecksum ((bech.map lowerChar).take p) ds = false →
        decodeTo5BitArray bech = .ok none) ∧
    (∀ bech : List Char,
        ¬ (∃ p, lastIdxOf (bech.map lowerChar) SEPARATOR = some p ∧ 1 ≤ p ∧
            p + 7 ≤ (bech.map lowerChar).length ∧
            ∀ c ∈ (bech.map lowerChar).drop (p + 1), c ∈ CHARSET) →
        ∃ e, decodeTo5BitArray bech = .error e) := by
  constructor
  · intro bech p ds hlast hp hlen hread hver
    rw [decodeTo5BitArray_eval, hlast]
    simp only [if_neg (show ¬ p < 1 by omega),
      if_neg (show ¬ (bech.map lowerChar).length < p + 7 by omega), hread, hver,
      if_neg Bool.false_ne_true]
  · intro bech hn
    cases hlast : lastIdxOf (bech.map lowerChar) SEPARATOR with
    | none =>
      refine ⟨.missingSeparatorError, ?_⟩
      rw [decodeTo5BitArray_eval, hlast]
    | some p =>
      by_cases hp : p < 1
      · refine ⟨.separatorTooEarlyError, ?_⟩
        rw [decodeTo5BitArray_eval, hlast]
        simp only [if_pos hp]
      · by_cases hlen : (bech.map lowerChar).length < p + 7
        · refine ⟨.insufficientDataError, ?_⟩
          rw [decodeTo5BitArray_eval, hlast]
          simp only [if_neg hp, if_pos hlen]
        · cases hread : readDataChars ((bech.map lowerChar).drop (p + 1)) with
          | error e =>
            refine ⟨e, ?_⟩
            rw [decodeTo5BitArray_eval, hlast]
            simp only [if_neg hp, if_neg hlen, hread]
          | ok ds =>
            exact absurd ⟨p, hlast, by omega, by omega,
              readDataChars_ok_all _ ds hread⟩ hn

theorem soft_failure_vs_structural_throw_witness :
    decodeTo5BitArray ['a', '1', 'q', 'q', 'q', 'q', 'q', 'q'] = .ok none :=
  soft_failure_vs_structural_throw.1 ['a', '1', 'q', 'q', 'q', 'q', 'q', 'q']
    1 [0, 0, 0, 0, 0, 0] (by rfl) (by decide) (by decide) (by rfl) (by rfl)

end Bech32

namespace Bech32

/-- C4: the separator is located as the last occurrence of `1` in the
lowercased input (final conjunct), and the three structural errors are
thrown exactly when: no separator at all; last separator at position 0;
fewer than 6 characters after the last separator — checked in that order,
before any alphabet lookup or checksum computation. -/
theorem decode_error_taxonomy (bech : List Char) :
    (decodeTo5BitArray bech = .error .missingSeparatorError ↔
      SEPARATOR ∉ bech.map lowerChar) ∧
    (decodeTo5BitArray bech = .error .separatorTooEarlyError ↔
      lastIdxOf (bech.map lowerChar) SEPARATOR = some 0) ∧
    (decodeTo5BitArray bech = .error .insufficientDataError ↔
      ∃ p, lastIdxOf (bech.map lowerChar) SEPARATOR = some p ∧ 1 ≤ p ∧
        (bech.map lowerChar).length < p + 7) ∧
    (∀ p, lastIdxOf (bech.map lowerChar) SEPARATOR = some p ↔
      ((bech.map lowerChar).get? p = some SEPARATOR ∧
        ∀ j, p < j → (bech.map lowerChar).get? j ≠ some SEPARATOR)) := by
  refine ⟨?_, ?_, ?_, fun p => lastIdxOf_eq_some _ _ p⟩
  · constructor
    · intro h
      cases hlast : lastIdxOf (bech.map lowerChar) SEPARATOR with
      | none => exact (lastIdxOf_none_iff _ _).mp hlast
      | some p =>
        exfalso
        rw [decodeTo5BitArray_eval, hlast] at h
        by_cases hp : p < 1
        · simp only [if_pos hp] at h
          cases h
        · by_cases hlen : (bech.map lowerChar).length < p + 7
          · simp only [if_neg hp, if_pos hlen] at h
            cases h
          · cases hread : readDataChars ((bech.map lowerChar).drop (p + 1)) with
            | error e =>
              simp only [if_neg hp, if_neg hlen, hread] at h
              obtain ⟨c, _, rfl, _⟩ := readDataChars_err _ e hread
              cases h
            | ok ds =>
              simp only [if_neg hp, if_neg hlen, hread] at h
              by_cases hv : verifyChecksum ((bech.map lowerChar).take p) ds = true
              · simp only [hv, if_pos rfl] at h
                cases h
              · rw [if_neg hv] at h
                cases h
    · intro h
      rw [decodeTo5BitArray_eval, (lastIdxOf_none_iff _ _).mpr h]
  · constructor
    · intro h
      cases hlast : lastIdxOf (bech.map lowerChar) SEPARATOR with
      | none =>
        exfalso
        rw [decodeTo5BitArray_eval, hlast] at h
        cases h
      | some p =>
        rw [decodeTo5BitArray_eval, hlast] at h
        by_cases hp : p < 1
        · have hp0 : p = 0 := by omega
          rw [hp0]
        · exfalso
          by_cases hlen : (bech.map lowerChar).length < p + 7
          · simp only [if_neg hp, if_pos hlen] at h
            cases h
          · cases hread : readDataChars ((bech.map lowerChar).drop (p + 1)) with
            | error e =>
              simp only [if_neg hp, if_neg hlen, hread] at h
              obtain ⟨c, _, rfl, _⟩ := readDataChars_err _ e hread
              cases h
            | ok ds =>
              simp only [if_neg hp, if_neg hlen, hread] at h
              by_cases hv : verifyChecksum ((bech.map lowerChar).take p) ds = true
              · simp only [hv, if_pos rfl] at h
                cases h
              · rw [if_neg hv] at h
                cases h
    · intro h
      rw [decodeTo5BitArray_eval, h]
      simp only [if_pos (by omega : (0 : Nat) < 1)]
  · constructor
    · intro h
      cases hlast : lastIdxOf (bech.map lowerChar) SEPARATOR with
      | none =>
        exfalso
        rw [decodeTo5BitArray_eval, hlast] at h
        cases h
      | some p =>
        rw [decodeTo5BitArray_eval, hlast] at h
        by_cases hp : p < 1
        · simp only [if_pos hp] at h
          cases h
        · by_cases hlen : (bech.map lowerChar).length < p + 7
          · exact ⟨p, rfl, by omega, hlen⟩
          · exfalso
            cases hread : readDataChars ((bech.map lowerChar).drop (p + 1)) with
            | error e =>
              simp only [if_neg hp, if_neg hlen, hread] at h
              obtain ⟨c, _, rfl, _⟩ := readDataChars_err _ e hread
              cases h
            | ok ds =>
              simp only [if_neg hp, if_neg hlen, hread] at h
              by_cases hv : verifyChecksum ((bech.map lowerChar).take p) ds = true
              · simp only [hv, if_pos rfl] at h
                cases h
              · rw [if_neg hv] at h
                cases h
    · rintro ⟨p, hlast, hp, hlen⟩
      rw [decodeTo5BitArray_eval, hlast]
      simp only [if_neg (show ¬ p < 1 by omega), if_pos hlen]

end Bech32

namespace Bech32

theorem decode_error_taxonomy_witness :
    decodeTo5BitArray ['q', 'q', 'q'] = .error .missingSeparatorError :=
  (decode_error_taxonomy ['q', 'q', 'q']).1.mpr (by decide)

/-- C5: with `padding = false` the converter fails with the excess-padding
error exactly when the residual buffered bit count is at least `fromBits`,
fails with the non-zero-padding error exactly when the residue shifted to
width `toBits` and masked is non-zero, and otherwise succeeds with every
output unit below `2 ^ toBits`. -/
theorem convertBits_unpadded_spec (data : List Nat) (fb tb : Nat) :
    (convertBits data fb tb false = .error .excessPaddingError ↔
      fb ≤ (convertBitsCore fb tb ((1 <<< tb) - 1) data 0 0).2.2) ∧
    (convertBits data fb tb false = .error .nonZeroPaddingError ↔
      ((convertBitsCore fb tb ((1 <<< tb) - 1) data 0 0).2.2 < fb ∧
        ((convertBitsCore fb tb ((1 <<< tb) - 1) data 0 0).2.1
            <<< (tb - (convertBitsCore fb tb ((1 <<< tb) - 1) data 0 0).2.2))
          &&& ((1 <<< tb) - 1) ≠ 0)) ∧
    ((convertBitsCore fb tb ((1 <<< tb) - 1) data 0 0).2.2 < fb →
      ((convertBitsCore fb tb ((1 <<< tb) - 1) data 0 0).2.1
          <<< (tb - (convertBitsCore fb tb ((1 <<< tb) - 1) data 0 0).2.2))
        &&& ((1 <<< tb) - 1) = 0 →
      convertBits data fb tb false
          = .ok (convertBitsCore fb tb ((1 <<< tb) - 1) data 0 0).1 ∧
      ∀ x ∈ (convertBitsCore fb tb ((1 <<< tb) - 1) data 0 0).1, x < 2 ^ tb) := by
  have hout : ∀ x ∈ (convertBitsCore fb tb ((1 <<< tb) - 1) data 0 0).1, x < 2 ^ tb := by
    intro x hx
    have hle := convertBitsCore_out fb tb ((1 <<< tb) - 1) data 0 0 x hx
    have h2 : (1 <<< tb : Nat) = 2 ^ tb := by
      rw [Nat.shiftLeft_eq, Nat.one_mul]
    have h3 : (0 : Nat) < 2 ^ tb := Nat.two_pow_pos tb
    omega
  unfold convertBits
  rw [if_neg Bool.false_ne_true]
  by_cases h1 : fb ≤ (convertBitsCore fb tb ((1 <<< tb) - 1) data 0 0).2.2
  · rw [if_pos h1]
    refine ⟨⟨fun _ => h1, fun _ => rfl⟩, ⟨?_, ?_⟩, ?_⟩
    · intro h
      cases h
    · rintro ⟨h2, _⟩
      omega
    · intro h2 _
      omega
  · rw [if_neg h1]
    by_cases h2 : ((convertBitsCore fb tb ((1 <<< tb) - 1) data 0 0).2.1
        <<< (tb - (convertBitsCore fb tb ((1 <<< tb) - 1) data 0 0).2.2))
        &&& ((1 <<< tb) - 1) ≠ 0
    · rw [if_pos h2]
      refine ⟨⟨?_, ?_⟩, ⟨fun _ => ⟨by omega, h2⟩, fun _ => rfl⟩, ?_⟩
      · intro h
        cases h
      · intro h
        omega
      · intro _ h3
        exact absurd h3 h2
    · rw [if_neg h2]
      refine ⟨⟨?_, ?_⟩, ⟨?_, ?_⟩, fun _ _ => ⟨rfl, hout⟩⟩
      · intro h
        cases h
      · intro h
        omega
      · intro h
        cases h
      · rintro ⟨_, h3⟩
        exact absurd (not_ne_iff.mp h2) h3

theorem convertBits_unpadded_spec_witness :
    convertBits [0] 5 8 false = .error .excessPaddingError :=
  (convertBits_unpadded_spec [0] 5 8).1.mpr (by
    simp only [convertBitsCore]
    rw [emitLoop_eq]
    norm_num)

end Bech32

namespace Bech32Helper

/-- C6: `fromBech32` propagates the soft failure of `decode` as `ok none`
without throwing; throws the prefix-mismatch error naming both codes when
the decoded code differs from the expected one; throws the empty-payload
error on an empty decoded payload; and otherwise returns the first payload
byte as the address type and the rest as the address bytes. -/
theorem fromBech32_spec (text hrpExp : List Char) :
    (Bech32.decode text = .ok none → fromBech32 text hrpExp = .ok none) ∧
    (∀ h d, Bech32.decode text = .ok (some (h, d)) → h ≠ hrpExp →
      fromBech32 text hrpExp = .error (.prefixMismatchError hrpExp h)) ∧
    (Bech32.decode text = .ok (some (hrpExp, [])) →
      fromBech32 text hrpExp = .error .emptyPayloadError) ∧
    (∀ t ts, Bech32.decode text = .ok (some (hrpExp, t :: ts)) →
      fromBech32 text hrpExp = .ok (some (t, ts))) := by
  refine ⟨?_, ?_, ?_, ?_⟩
  · intro h
    unfold fromBech32
    rw [h]
  · intro h d hdec hne
    unfold fromBech32
    rw [hdec]
    simp only [if_pos hne]
  · intro hdec
    unfold fromBech32
    rw [hdec]
    simp only [if_neg (show ¬ hrpExp ≠ hrpExp from fun hc => hc rfl)]
  · intro t ts hdec
    unfold fromBech32
    rw [hdec]
    simp only [if_neg (show ¬ hrpExp ≠ hrpExp from fun hc => hc rfl)]

theorem fromBech32_spec_witness :
    fromBech32 ['a', '1', 'q', 'q', 'q', 'q', 'q', 'q'] ['i'] = .ok none :=
  (fromBech32_spec ['a', '1', 'q', 'q', 'q', 'q', 'q', 'q'] ['i']).1 (by rfl)

end Bech32Helper

namespace Bech32

/-- C8: the pattern pre-check always accepts the codec's own output:
`matches hrp (encode hrp b)` is true for every non-empty lowercase code and
every byte payload. -/
theorem matchesPattern_encode (hrp : List Char) (bytes : List Nat)
    (hhrp : ∀ c ∈ hrp, 97 ≤ c.toNat ∧ c.toNat ≤ 122) (hrp0 : hrp ≠ [])
    (hb : ∀ x ∈ bytes, x < 256) :
    matchesPattern hrp (encode hrp bytes) = true := by
  obtain ⟨h32, hlen5, hval5⟩ := to5Bit_spec bytes hb
  have hcs32 : ∀ x ∈ createChecksum hrp (to5Bit bytes), x < 32 :=
    createChecksum_lt hrp (to5Bit bytes)
  have hall32 : ∀ x ∈ to5Bit bytes ++ createChecksum hrp (to5Bit bytes), x < 32 := by
    intro x hx
    rcases List.mem_append.mp hx with hx | hx
    · exact h32 x hx
    · exact hcs32 x hx
  rw [encode_shape]
  have hdrop : (hrp ++ SEPARATOR
        :: ((to5Bit bytes ++ createChecksum hrp (to5Bit bytes)).map
            (fun d => CHARSET.getD d ' '))).drop (hrp.length + 1)
      = (to5Bit bytes ++ createChecksum hrp (to5Bit bytes)).map
          (fun d => CHARSET.getD d ' ') := by
    have hsplit : hrp ++ SEPARATOR
          :: ((to5Bit bytes ++ createChecksum hrp (to5Bit bytes)).map
              (fun d => CHARSET.getD d ' '))
        = (hrp ++ [SEPARATOR])
          ++ (to5Bit bytes ++ createChecksum hrp (to5Bit bytes)).map
              (fun d => CHARSET.getD d ' ') := by
      simp
    rw [hsplit]
    have hlen1 : (hrp ++ [SEPARATOR]).length = hrp.length + 1 := by simp
    rw [← hlen1, List.drop_left]
  simp only [matchesPattern, Bool.and_eq_true, decide_eq_true_eq, List.all_eq_true]
  refine ⟨⟨⟨List.take_left _ _, ?_⟩, ?_⟩, ?_⟩
  · rw [List.drop_left]
    rfl
  · intro c hc
    rw [hdrop] at hc
    obtain ⟨d, hd, rfl⟩ := List.mem_map.mp hc
    exact (idxOf?_isSome CHARSET _).mpr (charset_getD_mem d (hall32 d hd))
  · rw [hdrop, List.length_map, List.length_append,
      createChecksum_length hrp (to5Bit bytes)]
    omega

theorem matchesPattern_encode_witness :
    matchesPattern ['a'] (encode ['a'] []) = true :=
  matchesPattern_encode ['a'] [] (by decide) (by decide) (by decide)

/-- C9: whenever the pattern pre-check accepts, `decodeTo5BitArray` never
throws: the result is `ok` — either a decoded pair or the soft failure. -/
theorem matches_implies_no_throw (hrp text : List Char) (hrp0 : hrp ≠ [])
    (hhrp : ∀ c ∈ hrp, (97 ≤ c.toNat ∧ c.toNat ≤ 122) ∨ (48 ≤ c.toNat ∧ c.toNat ≤ 57))
    (hm : matchesPattern hrp text = true) :
    ∃ r, decodeTo5BitArray text = .ok r := by
  simp only [matchesPattern, Bool.and_eq_true, decide_eq_true_eq, List.all_eq_true] at hm
  obtain ⟨⟨⟨h1, h2⟩, h3⟩, h4⟩ := hm
  have hmem : ∀ c ∈ text.drop (hrp.length + 1), c ∈ CHARSET := by
    intro c hc
    have := h3 c hc
    exact (idxOf?_isSome CHARSET c).mp this
  obtain ⟨ds, hread, hdlen, hdlt⟩ := readDataChars_ok _ hmem
  have htext : text = hrp ++ SEPARATOR :: text.drop (hrp.length + 1) := by
    conv_lhs => rw [← List.take_append_drop hrp.length text]
    rw [h1]
    congr 1
    have hdd : text.drop (hrp.length + 1) = (text.drop hrp.length).drop 1 := by
      rw [List.drop_drop]
    cases hd : text.drop hrp.length with
    | nil =>
      rw [hd] at h2
      cases h2
    | cons b t =>
      rw [hd] at h2
      simp only [List.take_succ_cons, List.take_zero] at h2
      injection h2 with hb _
      rw [hdd, hd, hb, List.drop_succ_cons, List.drop_zero]
  have hl : ∀ c ∈ hrp, lowerChar c = c := by
    intro c hc
    rcases hhrp c hc with h | h
    · exact lowerChar_eq_self (Or.inr (by omega))
    · exact lowerChar_eq_self (Or.inl (by omega))
  rw [htext, decodeTo5BitArray_structured hrp _ ds hl hrp0 hmem h4 hread]
  by_cases hv : verifyChecksum hrp ds = true
  · rw [if_pos hv]
    exact ⟨_, rfl⟩
  · rw [if_neg hv]
    exact ⟨none, rfl⟩

theorem matches_implies_no_throw_witness :
    ∃ r, decodeTo5BitArray ['a', '1', 'q', 'q', 'q', 'q', 'q', 'q'] = .ok r :=
  matches_implies_no_throw ['a'] ['a', '1', 'q', 'q', 'q', 'q', 'q', 'q']
    (by decide) (by decide) (by decide)

end Bech32

namespace Bech32Helper

/-- C10: `toBech32` writes the address type into a byte slot, so the tag is
reduced mod 256 rather than rejected: the encoding equals the encoding of
`t % 256`, and the first decoded payload byte is `t % 256`. -/
theorem toBech32_mod256 (t : Nat) (addressBytes : List Nat) (hrp : List Char)
    (hhrp : ∀ c ∈ hrp, 97 ≤ c.toNat ∧ c.toNat ≤ 122) (hrp0 : hrp ≠ [])
    (hb : ∀ x ∈ addressBytes, x < 256) :
    toBech32 t addressBytes hrp = toBech32 (t % 256) addressBytes hrp ∧
    Bech32.decode (toBech32 t addressBytes hrp)
      = .ok (some (hrp, (t % 256) :: addressBytes)) := by
  constructor
  · unfold toBech32
    rw [Nat.mod_mod_of_dvd t (dvd_refl 256)]
  · unfold toBech32
    apply Bech32.decode_encode hrp ((t % 256) :: addressBytes) hhrp hrp0
    intro x hx
    rcases List.mem_cons.mp hx with hx | hx
    · subst hx
      exact Nat.mod_lt _ (by norm_num)
    · exact hb x hx

theorem toBech32_mod256_witness :
    toBech32 300 [] ['a'] = toBech32 (300 % 256) [] ['a'] :=
  (toBech32_mod256 300 [] ['a'] (by decide) (by decide) (by decide)).1

end Bech32Helper

namespace Bech32

/-- Substituting one 5-bit symbol after the separator always breaks the
checksum: the decode of the substituted well-formed string is the soft
failure. -/
lemma substitution_core (hrp : List Char) (all : List Nat) (j d' : Nat)
    (hl : ∀ ch ∈ hrp, lowerChar ch = ch) (hrp0 : hrp ≠ [])
    (hall32 : ∀ x ∈ all, x < 32) (h6 : 6 ≤ all.length)
    (hj : j < all.length) (hd32 : d' < 32) (hdne : d' ≠ all[j])
    (hver : verifyChecksum hrp all = true) :
    decodeTo5BitArray
        (hrp ++ SEPARATOR :: (all.set j d').map (fun d => CHARSET.getD d ' '))
      = .ok none := by
  have hset32 : ∀ x ∈ all.set j d', x < 32 := by
    intro x hx
    rcases List.mem_or_eq_of_mem_set hx with h | h
    · exact hall32 x h
    · subst h
      exact hd32
  have hmem : ∀ ch ∈ (all.set j d').map (fun d => CHARSET.getD d ' '), ch ∈ CHARSET := by
    intro ch hch
    obtain ⟨d, hd, rfl⟩ := List.mem_map.mp hch
    exact charset_getD_mem d (hset32 d hd)
  have h6' : 6 ≤ ((all.set j d').map (fun d => CHARSET.getD d ' ')).length := by
    rw [List.length_map, List.length_set]
    exact h6
  have hread := readDataChars_map (all.set j d') hset32
  rw [decodeTo5BitArray_structured hrp _ (all.set j d') hl hrp0 hmem h6' hread]
  have hEbound : ∀ v ∈ humanReadablePartExpand hrp, v < 2 ^ 30 := fun v hv =>
    lt_of_lt_of_le (expand_lt hrp v hv) (by norm_num)
  have hu : ∀ v ∈ all.take j, v < 2 ^ 30 := fun v hv =>
    lt_of_lt_of_le (hall32 v (List.mem_of_mem_take hv)) (by norm_num)
  have hw : ∀ v ∈ all.drop (j + 1), v < 2 ^ 30 := fun v hv =>
    lt_of_lt_of_le (hall32 v (List.mem_of_mem_drop hv)) (by norm_num)
  have hmemj : all[j] ∈ all := by
    have := List.get_mem all j hj
    simpa using this
  have hold1 : polymod (humanReadablePartExpand hrp ++ all) = 1 := by
    unfold verifyChecksum at hver
    exact of_decide_eq_true hver
  have hdecomp : all = all.take j ++ all[j] :: all.drop (j + 1) := by
    conv_lhs => rw [← List.take_append_drop j all]
    congr 1
    exact (List.getElem_cons_drop all j hj).symm
  have hold2 : polymod (humanReadablePartExpand hrp
      ++ (all.take j ++ all[j] :: all.drop (j + 1))) = 1 := by
    rw [← hdecomp]
    exact hold1
  have hnew := polymod_substitution (humanReadablePartExpand hrp) (all.take j)
    (all.drop (j + 1)) (all[j]) d' hEbound hu hw (hall32 _ hmemj) hd32 hdne hold2
  have hsetdec : all.set j d' = all.take j ++ d' :: all.drop (j + 1) :=
    List.set_eq_take_cons_drop d' hj
  have hvfalse : verifyChecksum hrp (all.set j d') = false := by
    unfold verifyChecksum
    rw [hsetdec]
    exact decide_eq_false hnew
  rw [hvfalse, if_neg Bool.false_ne_true]

end Bech32

namespace Bech32

/-- Substitution after the separator: for every valid encoded string, every
position strictly after the separator, and every alphabet character
different from the character at that position, decoding the substituted
string returns the soft failure — single-character substitution in the data
or checksum region is detected with certainty. -/
theorem substitution_after_separator_detected (hrp : List Char) (bytes : List Nat)
    (i : Nat) (c : Char)
    (hhrp : ∀ ch ∈ hrp, 97 ≤ ch.toNat ∧ ch.toNat ≤ 122) (hrp0 : hrp ≠ [])
    (hb : ∀ x ∈ bytes, x < 256)
    (hi : hrp.length + 1 ≤ i) (hilt : i < (encode hrp bytes).length)
    (hc : c ∈ CHARSET) (hne : (encode hrp bytes).get? i ≠ some c) :
    decode ((encode hrp bytes).set i c) = .ok none := by
  obtain ⟨h32s, hlen5, hval5⟩ := to5Bit_spec bytes hb
  have hcs32 : ∀ x ∈ createChecksum hrp (to5Bit bytes), x < 32 :=
    createChecksum_lt hrp (to5Bit bytes)
  have hall32 : ∀ x ∈ to5Bit bytes ++ createChecksum hrp (to5Bit bytes), x < 32 := by
    intro x hx
    rcases List.mem_append.mp hx with hx | hx
    · exact h32s x hx
    · exact hcs32 x hx
  have hcslen : (createChecksum hrp (to5Bit bytes)).length = 6 :=
    createChecksum_length hrp (to5Bit bytes)
  have h6 : 6 ≤ (to5Bit bytes ++ createChecksum hrp (to5Bit bytes)).length := by
    rw [List.length_append, hcslen]
    omega
  have hl : ∀ ch ∈ hrp, lowerChar ch = ch := fun ch hch =>
    lowerChar_lower (hhrp ch hch).1 (hhrp ch hch).2
  obtain ⟨d', hd'⟩ := Option.isSome_iff_exists.mp ((idxOf?_isSome CHARSET c).mpr hc)
  have hd32 : d' < 32 := by
    have hl32 := idxOf?_lt_length CHARSET c d' hd'
    have h32 : CHARSET.length = 32 := rfl
    omega
  have hcfor : CHARSET.getD d' ' ' = c := idxOf?_getD CHARSET c d' hd'
  have hslen : (encode hrp bytes).length
      = hrp.length + 1 + (to5Bit bytes ++ createChecksum hrp (to5Bit bytes)).length := by
    rw [encode_shape, List.length_append, List.length_cons, List.length_map]
    omega
  have hj : i - (hrp.length + 1)
      < (to5Bit bytes ++ createChecksum hrp (to5Bit bytes)).length := by
    rw [hslen] at hilt
    omega
  have hgety : (encode hrp bytes).get? i
      = some (CHARSET.getD
          ((to5Bit bytes ++ createChecksum hrp (to5Bit bytes))[i - (hrp.length + 1)]) ' ') := by
    rw [encode_shape, List.get?_append_right (by omega : hrp.length ≤ i)]
    have hidx : i - hrp.length = (i - (hrp.length + 1)) + 1 := by omega
    rw [hidx, List.get?_cons_succ, List.get?_map, List.get?_eq_get hj]
    rfl
  have hdne : d' ≠ (to5Bit bytes ++ createChecksum hrp (to5Bit bytes))[i - (hrp.length + 1)] := by
    intro he
    apply hne
    rw [hgety, ← he, hcfor]
  have hver : verifyChecksum hrp (to5Bit bytes ++ createChecksum hrp (to5Bit bytes)) = true :=
    verifyChecksum_create hrp (to5Bit bytes) (fun x hx => by
      have := h32s x hx
      omega)
  have hsets : (encode hrp bytes).set i c
      = hrp ++ SEPARATOR
          :: (((to5Bit bytes ++ createChecksum hrp (to5Bit bytes)).set
              (i - (hrp.length + 1)) d').map (fun d => CHARSET.getD d ' ')) := by
    rw [encode_shape, List.set_append_right _ _ (by omega : hrp.length ≤ i)]
    congr 1
    have hidx : i - hrp.length = (i - (hrp.length + 1)) + 1 := by omega
    rw [hidx, List.set_cons_succ]
    congr 1
    rw [← hcfor, List.map_set]
  unfold decode
  rw [hsets, substitution_core hrp _ _ d' hl hrp0 hall32 h6 hj hd32 hdne hver]

theorem substitution_after_separator_detected_witness :
    decode ((encode ['a'] []).set 2 'q') = .ok none :=
  substitution_after_separator_detected ['a'] [] 2 'q' (by decide) (by decide)
    (by decide) (by decide) (by decide) (by decide) (by decide)

end Bech32

namespace Bech32

/-- `to5Bit` of the empty byte array is the empty symbol array. -/
lemma to5Bit_nil : to5Bit [] = [] := rfl

/-- `from5Bit` of the empty symbol array returns the empty byte array. -/
lemma from5Bit_nil : from5Bit [] = .ok [] := rfl

/-- Iterating the zero-input polymod step distributes over addition of the
iteration counts. -/
lemma gIter_add (a b d : Nat) : gIter (a + b) d = gIter b (gIter a d) := by
  induction a generalizing d with
  | zero =>
    rw [Nat.zero_add]
    simp only [gIter]
  | succ a ih =>
    have h : a + 1 + b = (a + b) + 1 := by omega
    rw [h]
    show gIter (a + b) (polymodStep d 0) = gIter b (gIter a (polymodStep d 0))
    rw [ih (polymodStep d 0)]

/-- The zero-input polymod step can be peeled off at the end of the
iteration as well as at the start. -/
lemma gIter_succ_out (k d : Nat) : gIter (k + 1) d = polymodStep (gIter k d) 0 := by
  induction k generalizing d with
  | zero => simp only [gIter]
  | succ k ih =>
    show gIter (k + 1) (polymodStep d 0) = polymodStep (gIter (k + 1) d) 0
    rw [ih (polymodStep d 0)]
    simp only [gIter]

/-- Adjacent-step certificate checker for iterating the zero-input polymod
step: every element of the list is the step image of its predecessor. -/
def gChain : List Nat → Bool
  | [] => true
  | [_] => true
  | a :: b :: t => (polymodStep a 0 == b) && gChain (b :: t)

/-- A verified chain certificate computes the iterate: if the chain checks
out, iterating the step map over the length of the tail lands on the last
element of the tail. -/
lemma gChain_spec : ∀ (l : List Nat) (a : Nat), gChain (a :: l) = true →
    gIter l.length a = l.getLastD a
  | [], _, _ => rfl
  | b :: t, a, h => by
    have h' : ((polymodStep a 0 == b) && gChain (b :: t)) = true := h
    simp only [Bool.and_eq_true] at h'
    obtain ⟨h1, h2⟩ := h'
    have heq : polymodStep a 0 = b := by simpa using h1
    rw [List.getLastD_cons]
    show gIter (t.length + 1) a = t.getLastD b
    have hstep : gIter (t.length + 1) a = gIter t.length (polymodStep a 0) := rfl
    rw [hstep, heq]
    exact gChain_spec t b h2

set_option maxRecDepth 20000 in
/-- The orbit of the XOR difference 2 under the zero-input polymod step,
from step 1 to step 1023. -/
def gOrbitTwoTail : List Nat := [64, 2048, 65536, 2097152, 67108864, 642813549, 1027569356,
  139009913, 394458842, 270938434, 964959133, 963918644, 661663252, 422279660, 109844391,
  213396799, 804532343, 386509942, 21849282, 699177024, 19297097, 617507104, 361351390, 707503728,
  179036923, 817303848, 28603502, 915312064, 465383601, 791636917, 207803446, 883626327,
  610596323, 14307518, 457840576, 835421589, 774300622, 760470358, 949919716, 438613012,
  471858965, 105662186, 347210911, 223489616, 313810327, 279172751, 691593789, 329858281,
  856684879, 230895420, 9728023, 311296736, 401094767, 494921698, 709842954, 104082875, 465530559,
  795126389, 85650486, 84740269, 133274573, 587833471, 810171105, 504433998, 1022908984,
  816611833, 46558798, 598187634, 630061889, 1039893758, 282548537, 665392381, 34350284,
  988728882, 793041254, 18124374, 579979968, 55012609, 327677842, 920032815, 280907089, 713791997,
  514593627, 727423128, 615268347, 432214974, 461463015, 681754997, 552424937, 935255955,
  1035434705, 424189145, 183546119, 1004367528, 154192422, 951606586, 519892948, 558107000,
  43339187, 700703186, 214515977, 567916215, 287487059, 420788669, 24386951, 780382432, 972668566,
  918592084, 310362673, 164635215, 614813722, 418312094, 1044306407, 320253355, 620613903,
  335465790, 972145583, 936328564, 864757297, 492355836, 783006666, 1022942166, 817675321,
  12703310, 406505920, 616174119, 453421118, 945584725, 41419316, 879366450, 1011153219,
  658042521, 271804492, 992950877, 393892998, 254966466, 634689637, 920117374, 277907313,
  793959933, 64232758, 32108914, 1027485248, 140644089, 316720858, 439402287, 513710197,
  755694936, 867851812, 460833372, 913389077, 71977489, 790219853, 179710774, 856565896,
  234428380, 131296279, 660036415, 499506316, 1023948234, 245465017, 397686533, 385747618,
  1069137474, 603609355, 775230561, 791490230, 204108886, 1035935063, 407137305, 728672519,
  571083803, 272610913, 984940541, 604168326, 202963998, 1005458519, 257922502, 678000869,
  966420457, 985380276, 636201382, 825350174, 829248174, 989594798, 756910822, 827632100,
  1036217838, 399145785, 423071010, 85102183, 67191437, 645455821, 943014604, 257888532,
  679076517, 998846441, 62448134, 209065842, 909343191, 201568849, 948428215, 420281972, 41739431,
  888587090, 803124547, 307825398, 218708655, 433504887, 423322823, 76526279, 933680781,
  1052137745, 33993579, 1002191570, 85607782, 85467821, 89447373, 214693837, 563047991, 469345363,
  666761205, 9455052, 302561664, 121590895, 986731583, 681023686, 642147209, 1071827532,
  680843467, 640573993, 853737036, 811847516, 456112878, 1031675989, 6540377, 209292064,
  935392151, 846395985, 576933116, 488090241, 658961514, 535836204, 14628472, 468111104,
  609262997, 106389118, 399578655, 442116578, 332153301, 1067474639, 549865643, 853374931,
  932379836, 942874417, 261402292, 823006885, 915703246, 419180913, 1013253127, 587679257,
  831976993, 629708110, 1029063966, 91186489, 196880717, 307128296, 266639727, 1057549765,
  902834667, 184803939, 95879720, 280021869, 727408253, 615834459, 450398142, 60394069, 140188946,
  365083578, 591776496, 969370369, 823797940, 873678830, 862855875, 33054396, 1057740672,
  901210443, 132839011, 543430079, 647419219, 636752140, 851889502, 887467292, 766737539,
  613049668, 487081054, 616247178, 455155102, 1017826901, 989727833, 761041926, 964130276,
  656012308, 336607724, 420839472, 22228007, 711296224, 57651451, 379341010, 871493698, 302124700,
  107591663, 269231167, 1019655229, 930169177, 608478097, 80781054, 1011044781, 667808601,
  244371532, 293718437, 226166653, 395409463, 307752162, 215349295, 575574647, 413957089,
  913069575, 132532305, 569627647, 342760787, 382801872, 978980866, 970923878, 840213588,
  782797916, 1016998166, 1013113913, 603668953, 773197345, 726558390, 638843451, 894565388,
  456744579, 1067625973, 546844651, 957456339, 734311156, 927560315, 591579089, 958844705,
  758033588, 925918116, 744553521, 519729924, 563581816, 417729971, 1059232839, 815667627,
  76899342, 888934317, 780610211, 963311350, 615093844, 427173470, 220717543, 470657911, 67553962,
  646568749, 638967500, 898982636, 61506179, 238684114, 81476197, 1027064525, 157261657,
  894628570, 458785859, 865727989, 520271996, 512687224, 788954360, 155205014, 916892474,
  515502065, 702811608, 137674825, 406393050, 616640871, 342016062, 390773360, 154117122,
  995465658, 405678182, 640034535, 870999948, 292616028, 324851805, 766734287, 612895940,
  491091038, 756887434, 826279012, 1062657518, 1041640587, 369623083, 561573730, 84512499,
  123817997, 823187583, 894262926, 413994691, 910357063, 36880465, 1026710930, 166491321,
  590319322, 881847873, 553326371, 896960211, 534119779, 68771736, 628850029, 590037374,
  873863873, 868583203, 344777404, 177138224, 873859144, 868734467, 348571324, 63597104, 36114866,
  1065902578, 633450251, 879824318, 1059547331, 807438635, 323449870, 784786863, 827529078,
  1026867118, 154153785, 950501082, 488149972, 648142538, 588603948, 869429377, 376575740,
  775566722, 784929494, 816707670, 48847790, 641802866, 1057682732, 898839755, 56641123,
  392338386, 204181570, 1032036311, 534002713, 73298136, 765367661, 557275268, 218067507,
  656396791, 349472140, 25300016, 809600512, 526815598, 302767672, 122921839, 927904831,
  599396177, 641720097, 819289932, 234731758, 122063447, 904631103, 208976099, 912690167,
  113112657, 176428031, 893989288, 404810243, 670984775, 149156748, 48195706, 545741042,
  989822195, 762478918, 1018551780, 958167673, 712509364, 14670459, 469454688, 669028757,
  188516812, 39483336, 807710386, 331581230, 1045987759, 534619307, 91055768, 201088365,
  440460264, 278200469, 803348861, 365661494, 576920432, 488463105, 639157354, 875968044,
  935336579, 846190801, 566697212, 318242099, 416793103, 958098375, 714748020, 479797883,
  379054890, 847613762, 1015934620, 1041896825, 395263595, 295642978, 245817245, 390083461,
  142514850, 292703674, 319521949, 660142031, 472924812, 62649802, 202698482, 980175319,
  1058284998, 910764427, 55163345, 308112786, 226874927, 139154039, 399202074, 420612418,
  27394663, 876629216, 957301507, 673130740, 928015817, 543175057, 638734483, 895789324,
  496238211, 936145962, 870452721, 276674812, 854928477, 848924028, 1057859932, 897104587,
  504464995, 1021919128, 847263225, 1010481660, 686881145, 715805801, 446013915, 171788021,
  576950504, 487335937, 607560810, 177234334, 935820680, 847460785, 1012609276, 616683897,
  343917566, 350929520, 105575344, 342142943, 394741328, 277880834, 793129885, 21614902,
  691676864, 334603081, 941362511, 175563124, 722952392, 758330875, 881019460, 560961411,
  132551379, 568886207, 386143571, 16400482, 524815424, 400063480, 460821762, 914087381, 85406225,
  79088717, 814286797, 108439758, 334479391, 1003513743, 143781574, 211599674, 728346839,
  585709083, 207156833, 871324599, 299331644, 128726109, 683430527, 591344809, 915972129,
  427330705, 217233415, 648451959, 603739532, 787776641, 924791478, 696966769, 99530089,
  461775693, 676140085, 1024982505, 223902681, 335473847, 972419727, 927537524, 592422449,
  948630305, 413740212, 918994087, 314252369, 290188879, 339737149, 485358096, 403498570,
  578806631, 511859169, 781373400, 1003903382, 139865574, 342140218, 394664688, 280736770,
  708096925, 155803483, 931852954, 993188849, 348545286, 64920944, 12188082, 390018624, 127803906,
  788437407, 912036214, 33465969, 1070911008, 777278795, 587533302, 836717505, 750725454,
  83942628, 105583341, 341345407, 268579408, 1023703517, 254344537, 646212357, 665050060,
  55952108, 298977842, 117667229, 1028942463, 86673689, 50441549, 459275794, 863420373, 49020028,
  638965810, 899005740, 61962883, 222627794, 273771991, 930056509, 664645393, 77289804, 893102061,
  376578723, 775732834, 773353174, 713193558, 529540667, 215823512, 592905367, 1000253409,
  21619462, 691822784, 322528073, 553913679, 177589075, 930227240, 606604721, 155540222,
  906643002, 186929137, 21147752, 676728064, 1047845705, 441907307, 307654901, 216431311,
  608095863, 194847294, 376375688, 765057794, 568235364, 298241587, 94107069, 355350989,
  1054180368, 243077963, 205105477, 1069858615, 744126379, 430637124, 377692839, 807190242,
  348228910, 52631664, 520706482, 536004024, 8471800, 271097600, 944886749, 63779636, 46936370,
  585921010, 217058113, 653328311, 691096972, 312265417, 363937103, 758453328, 877100836,
  971586435, 886061300, 721535363, 803675291, 359412214, 915702640, 419227313, 1015020551,
  542656025, 555524499, 159404243, 782959514, 1022349782, 845020217, 662929916, 123634924,
  921322591, 388236113, 83394594, 960530989, 568724788, 383108147, 985689186, 714117990,
  499990587, 1008444202, 752067513, 143753732, 210852218, 718977239, 344471067, 169115344,
  658805832, 532427372, 157269624, 894883578, 467402819, 587822581, 810584993, 491201870,
  760679818, 939803748, 159368212, 827956090, 1013268014, 587203385, 830362145, 949753166,
  443933012, 372594453, 651298978, 762294060, 1058017444, 919569867, 329003473, 900619855,
  80549603, 1072845325, 713543915, 522531227, 444579992, 393309845, 240466082, 154981477,
  960206170, 780526548, 959698966, 797723220, 403105814, 591276263, 918235617, 487175313,
  612709994, 484581790, 435656586, 487709543, 663275690, 104312364, 466558047, 560658037,
  122334227, 879713215, 1022208227, 840096409, 778524156, 627383574, 552029726, 922591603,
  366520017, 537290640, 718835891, 348994203, 45477584, 769101234, 672416612, 909973449,
  231633297, 20948407, 670349024, 163080044, 699266170, 17560585, 561938720, 96749235, 517494797,
  634581592, 907716574, 154694513, 967800794, 1008317396, 747748473, 13793796, 441401472,
  291597717, 292520317, 280108157, 721534077, 803775323, 345754102, 141263728, 332494842,
  1007065903, 796173081, 119259574, 1044573983, 479228587, 398324010, 398905154, 413205058,
  935551591, 838911057, 740592892, 376728228, 787857026, 926446294, 761451121, 1052752644,
  54194635, 473198290, 54427146, 480614130, 285309450, 493712029, 673052650, 923502089, 723274129,
  743841499, 405155396, 656859815, 334688140, 947230191, 122025332, 897873759, 25703651,
  822516832, 931519854, 987178353, 679063814, 998464393, 49704454, 631740274, 951452318,
  523705172, 406493560, 615515431, 440682558, 268466773, 1028487549, 101247321, 472380159,
  21887914, 700413248, 56349513, 269500050, 1061544349, 1014080235, 563321753, 409407891,
  788600903, 162310774, 724850490, 693488571, 504106025, 1062762200, 1069763147, 749000747,
  108982340, 316985695, 447893391, 247499893, 462048901, 700493109, 211869161, 753543863,
  262185924, 932165797, 1000053777, 32414982, 1037279424, 366206713, 560554640, 121122995,
  977063871, 889514182, 295421891, 238734269, 79869829, 1040613069, 335694059, 458989776,
  872245141, 328266876, 876014575, 937140963, 823710929, 877448014, 949991107, 436310260,
  414933781, 881805447, 552587235, 938319571, 937382609, 830919313, 663487310, 112120492,
  148933727, 45126170, 762844402, 1038576484, 323660409, 796732239, 103467894, 409188127,
  798345671, 456563318, 1046098773, 529267691, 262573720, 927601445, 590277649, 883144481,
  628112163, 574851262, 420422337, 34042375, 998512466, 35648870, 949287794, 459810516, 898475797,
  11681187, 373797984, 680420866, 628734729, 594775550, 1057983169, 893176171, 379581027,
  864462434, 485018268, 413857738, 918410087, 500622417, 1064250986, 958946315, 754764276,
  226282404, 392749847, 224692450, 341871575, 386123600, 2]

set_option maxRecDepth 20000 in
/-- The orbit of the XOR difference 1 under the zero-input polymod step,
from step 1 to step 1023. -/
def gOrbitOneTail : List Nat := [32, 1024, 32768, 1048576, 33554432, 996825010, 534243686,
  69525304, 583756141, 135469217, 482479578, 502406922, 1005602058, 211140198, 709253975,
  118769179, 1068636863, 579782315, 10936417, 349965344, 9648560, 308753920, 181314671,
  1008714664, 744469497, 420710916, 26372775, 843928800, 630627036, 1050130270, 104561291,
  441813183, 305687157, 19213007, 614816224, 418369758, 1041838567, 401321387, 487415650,
  605571082, 256765342, 707163109, 185684059, 132203816, 554859743, 140245331, 366883738,
  550817520, 814595251, 115459854, 16922655, 541524960, 586423987, 268297057, 1009232901,
  726812249, 630712283, 1052252094, 63923851, 42370770, 733646322, 948867771, 405086196,
  658560167, 523513740, 408683128, 677602599, 953802665, 315407796, 532665071, 153333272,
  987028218, 671498342, 880637833, 1051209251, 29906219, 956999008, 681829524, 550103497,
  858348435, 152532156, 1011846778, 643172793, 1039109196, 307646329, 216107855, 616627831,
  341516862, 276232816, 865959389, 529775996, 212753528, 758782103, 900130756, 98183043,
  487882253, 658269674, 279053868, 688059997, 350990569, 107258000, 296668127, 144394301,
  231218778, 32660695, 1045142240, 499043659, 845810986, 561882012, 94376243, 307406861,
  209544655, 928853623, 566838865, 322742419, 566064655, 498770771, 854052394, 818267036,
  267264750, 1046453733, 524168683, 421285528, 7010599, 224339168, 320146327, 612963983,
  493239614, 695468938, 439683593, 505953461, 1004430680, 156349478, 882351418, 603289667,
  802241889, 329780918, 858370735, 151671612, 1072397946, 698506763, 16693801, 534201632,
  70342648, 544895341, 626675475, 655167166, 378498220, 831881090, 637116718, 863029534, 35988764,
  1070527538, 756225803, 814158916, 129292782, 732029983, 1004777243, 250149958, 511985893,
  777056088, 596789654, 590809025, 933154081, 968174737, 1062394548, 1050068939, 102066219,
  530046143, 203580440, 1019024535, 939873305, 157141940, 890793850, 302723139, 122579983,
  888625215, 804116707, 339001078, 495281008, 891275850, 318740035, 433761295, 414624711,
  892752583, 399280099, 434640482, 518121063, 585449240, 232379905, 63657911, 33595730, 998145522,
  491954534, 803702922, 360625110, 885311344, 698233091, 125000489, 860994815, 101423420,
  474611295, 210530218, 696017623, 456729001, 1068320949, 560236523, 109354963, 229188543,
  232120439, 38639991, 853113170, 924003484, 671685425, 899030377, 63271459, 63181778, 65547762,
  107997682, 281536415, 633258045, 1000139646, 16806118, 537795776, 735574707, 891320987,
  352947299, 975385040, 922428710, 352857201, 974599056, 813395238, 406582702, 614309863,
  536285246, 3929144, 125732608, 854211039, 830160188, 942798574, 264869204, 984181413, 665865094,
  19385260, 620328320, 325737694, 727973807, 597743899, 627381857, 551952638, 919633267,
  274933457, 824633853, 864775886, 491904796, 797460426, 411524054, 856183015, 221649468,
  506646551, 948171032, 428436372, 315512999, 534999183, 45605400, 764810418, 539452260,
  788008499, 915301622, 463476337, 747353013, 59999108, 152708914, 1038483386, 320352697,
  623792975, 697206078, 90561673, 183181133, 950577128, 484685204, 432346826, 457306983,
  817303925, 28606414, 915405248, 462663857, 721382325, 271735387, 990476477, 330434694,
  812217519, 444122254, 395439189, 306536610, 243560495, 320193989, 613473487, 509572414,
  892818488, 401364995, 502524514, 1003415562, 188751462, 231244424, 31573655, 1010356960,
  683514617, 587605097, 834320417, 536958286, 708758387, 134627995, 510216858, 871407800,
  304615900, 53108719, 505522770, 988592568, 789194790, 147498582, 133550906, 595639967,
  560588513, 120110739, 942476223, 206978932, 842430743, 720577596, 297511803, 171400381,
  589355496, 895813633, 497540899, 826818602, 1046369326, 520557707, 507208344, 968204536,
  1061377940, 1017603019, 994819993, 468380678, 634715477, 920340094, 285493105, 499834365,
  1021844458, 849656761, 950759932, 479819540, 379406026, 869282626, 372928156, 657799554,
  294226732, 208885341, 916151351, 419892817, 50520071, 456546130, 1044617173, 482307051,
  308205866, 234045743, 110735991, 235706175, 34154437, 978235154, 994639206, 461550566,
  685703509, 794120681, 52797366, 534356338, 99474872, 468400493, 636375093, 831449726, 646651566,
  642608812, 1048801004, 77614283, 844699405, 656336764, 351425772, 89661488, 223643757,
  308320823, 171647631, 581902248, 77447169, 904433229, 202839715, 974341111, 821387718,
  167405998, 569125946, 395437555, 306467938, 245557295, 398902725, 413160098, 938049127,
  927155281, 570688145, 301885217, 42915837, 716220434, 432680635, 447151431, 207017333,
  841693495, 693837884, 533822665, 83258072, 949867885, 441312564, 288742165, 469324157,
  665014837, 54853068, 334884402, 949330479, 457379188, 820564757, 172766158, 743257992,
  457376804, 820640021, 174683086, 686110600, 672369225, 918827625, 317375889, 460379727,
  915649653, 404358673, 547612679, 1047093843, 434232107, 534269767, 97524504, 475262317,
  265161194, 979041637, 969061254, 832649300, 594631662, 1062553793, 1046776171, 408730667,
  678735687, 975213481, 915368454, 461490289, 682652597, 582684137, 102729761, 516677119,
  664947736, 57096300, 395139634, 299084866, 121093021, 1003334271, 187191494, 12670600,
  405459200, 649660967, 537919372, 736858931, 850217627, 966088124, 996015892, 421723558,
  129801959, 715719999, 452954907, 125312757, 842598271, 723315004, 742525819, 446995012,
  203044117, 1001862455, 75217350, 690468525, 272871145, 892858109, 402325667, 521731682,
  499531704, 1031033674, 19771321, 632682272, 989464798, 769393894, 694512100, 404244425,
  552325895, 929956435, 665633489, 45539660, 766934578, 606745444, 151158878, 1055986234,
  183490059, 942772008, 264678804, 994996901, 458443654, 853544277, 809348220, 283369198,
  557444637, 220832019, 499496439, 1023744682, 251958201, 587839237, 810079649, 508355918,
  927291960, 583520177, 159892257, 777616858, 580917718, 92082113, 166819405, 546295898,
  1005480435, 256909638, 698345701, 122185705, 875963647, 935477475, 841258193, 682532092,
  560391369, 113834899, 69577663, 585496973, 230753441, 13697975, 438335200, 478650773, 357013226,
  870342896, 271587548, 994125917, 448271494, 260828501, 853961349, 821122684, 159162094,
  825410618, 823055918, 915182766, 469638513, 659215285, 510971340, 809519736, 526327406,
  356138552, 1012234928, 621318393, 760673278, 943426276, 243667988, 324616869, 754987215,
  853798084, 809606748, 526752494, 308981304, 192783215, 176104360, 707738440, 171460091,
  583266600, 150999041, 1050876378, 11446795, 366297440, 565875120, 491148467, 762917418,
  1036234852, 399624825, 440509730, 280877525, 720963965, 285082459, 578967741, 20259489,
  648303648, 597966700, 637130881, 864025854, 63150364, 51999794, 407163378, 729355367, 553492507,
  899703251, 84600163, 118235661, 1019123839, 947177753, 124677044, 821538655, 161725070,
  718686266, 353774523, 970443472, 856560276, 234771548, 121314327, 978934591, 968259782,
  1060655188, 868719563, 349142972, 50154032, 616763826, 338090654, 533327472, 132398584,
  566060767, 498645331, 849645098, 950911900, 474954516, 206882506, 845762263, 555080764,
  145745203, 190693274, 243055880, 202137893, 964539191, 641805940, 1057715692, 899886283,
  90392163, 171459085, 583208936, 153077761, 1029183962, 77921721, 852441421, 903556988,
  174272643, 699227688, 18792009, 601344288, 730272001, 1060965595, 862718507, 29180860,
  933787520, 1063418033, 948078443, 430417396, 387421351, 42630882, 707103730, 191779515,
  134289704, 511851770, 782134456, 977417622, 987475430, 703112166, 161548169, 713156826,
  534919099, 43975832, 680182962, 636349705, 838422014, 679472814, 994619017, 461950470,
  697351509, 111333865, 157345023, 851281434, 999081372, 50703526, 467649394, 594613205,
  1063014305, 1061447019, 1010908203, 662717337, 119982156, 971231327, 898450292, 11448707,
  366358624, 567587248, 276976819, 755541437, 871449220, 303322716, 77770735, 839218061,
  747796348, 11213476, 358831232, 930622896, 627654321, 560151294, 108215667, 324892607,
  763794319, 574063812, 395226497, 296573474, 149518237, 59763290, 177675506, 925421576,
  796297649, 123638966, 921194271, 392522577, 215318562, 574723031, 424431585, 174773767,
  680627880, 646229577, 666595916, 4256492, 136207744, 493529594, 686201610, 677779977, 947272297,
  120587700, 993685343, 366015686, 554444144, 194038963, 399693864, 438562562, 485793237,
  455089898, 1015718101, 1056169049, 179706475, 856163112, 222061532, 528346135, 291795224,
  298586333, 79702141, 1045791181, 511551723, 829222552, 986415726, 736973542, 846557243,
  579994044, 54395521, 480905106, 284382730, 589886109, 878732961, 1024068387, 249995929,
  525308677, 388731736, 84574466, 117485101, 1026497663, 172247321, 759328104, 984111140,
  664148902, 99471276, 468286445, 631636021, 948234878, 426379092, 245612711, 400807109,
  469922466, 100528138, 435064621, 506646407, 947913496, 435628948, 486955175, 628666538,
  592640414, 992020161, 381536006, 935332546, 846057713, 562436348, 450329907, 40295413,
  934357266, 1011460849, 647141593, 628990028, 602989918, 794992321, 98335414, 501209261,
  1044951530, 500935691, 1053173034, 201929739, 970397431, 857052788, 244238428, 306367397,
  242290895, 230283717, 264941367, 986588869, 727304070, 619174971, 280980414, 716129309,
  439856987, 511481589, 827010392, 1043593838, 313711755, 276034831, 859607613, 195969404,
  268657096, 1026427613, 174497113, 689497448, 397006409, 356655906, 861329904, 115816668,
  31310431, 1001933792, 93610790, 350022317, 9431056, 301793792, 48395229, 656682002, 329988396,
  860832239, 97794876, 483912173, 525244906, 386584248, 18955522, 606576704, 145810654, 146637370,
  152133306, 1015729850, 1056838073, 185575019, 71271208, 564194157, 503910163, 1073222040,
  735027787, 908813723, 251673553, 597473797, 585725345, 206602529, 853652407, 805990460,
  370693870, 594687938, 1060687169, 869546347, 381365180, 924687746, 702494961, 257058153,
  701984005, 240704489, 142654725, 246856026, 357362533, 848285968, 1036395740, 392387961,
  202589474, 983118807, 565929414, 494459507, 715713066, 448948667, 12864245, 411655840,
  852033063, 891535932, 360618115, 885108176, 691234051, 316267305, 487784783, 668175786,
  224333356, 319836695, 606217871, 134233406, 514244154, 705574072, 236567547, 11321157,
  362277024, 703572400, 155209033, 917024986, 528126961, 294358488, 204703965, 1048611895,
  81532843, 1037204237, 367568729, 637949584, 937716076, 920757553, 374877841, 729626658,
  544745659, 621901267, 778720958, 616920406, 350897694, 106593904, 376772575, 786043362,
  852336342, 898620444, 16604291, 531337312, 195821560, 280277320, 735320797, 895252315,
  445133923, 160428533, 794765146, 40585686, 906194290, 167847665, 636457064, 834068958,
  562719406, 458831731, 867144693, 432961660, 439100839, 487442805, 604670698, 219525534,
  440902743, 276690805, 855432573, 866625916, 415836508, 986055079, 710749126, 75125819,
  689572109, 401890025, 519288610, 548345784, 1073124787, 706684715, 205244827, 1065919735,
  634982315, 929372606, 651149169, 785995084, 849677078, 949838876, 442223380, 334503701,
  942376655, 210211188, 671332631, 885152169, 692972067, 487079721, 615793002, 449626526,
  17911381, 573164192, 340222209, 335453584, 972805743, 915244404, 467412529, 588102581,
  818496417, 243148110, 207579621, 857516855, 262758460, 918013861, 479493137, 389817962,
  133965634, 582889887, 112723681, 171574783, 579596712, 1]


set_option maxRecDepth 20000 in
lemma gOrbitTwo_chain : gChain (2 :: gOrbitTwoTail) = true := by decide

set_option maxRecDepth 20000 in
lemma gOrbitTwo_len : gOrbitTwoTail.length = 1023 := by decide

set_option maxRecDepth 20000 in
lemma gOrbitTwo_last : gOrbitTwoTail.getLastD 2 = 2 := by decide

/-- The XOR difference 2 returns to itself after 1023 zero-input polymod
steps: the step map has order 1023 on the orbit of 2. -/
lemma gIter_1023_two : gIter 1023 2 = 2 := by
  have h := gChain_spec gOrbitTwoTail 2 gOrbitTwo_chain
  rw [gOrbitTwo_len, gOrbitTwo_last] at h
  exact h

set_option maxRecDepth 20000 in
lemma gOrbitOne_chain : gChain (1 :: gOrbitOneTail) = true := by decide

set_option maxRecDepth 20000 in
lemma gOrbitOne_len : gOrbitOneTail.length = 1023 := by decide

set_option maxRecDepth 20000 in
lemma gOrbitOne_last : gOrbitOneTail.getLastD 1 = 1 := by decide

/-- The XOR difference 1 returns to itself after 1023 zero-input polymod
steps. -/
lemma gIter_1023_one : gIter 1023 1 = 1 := by
  have h := gChain_spec gOrbitOneTail 1 gOrbitOne_chain
  rw [gOrbitOne_len, gOrbitOne_last] at h
  exact h

/-- Two single-symbol changes cancel in the polymod when the XOR difference
injected by the first change propagates, across the gap between the two
changed positions, exactly onto the XOR difference of the second change. -/
lemma polymod_two_changes (M W : List Nat) (a0 b0 aj bj : Nat)
    (hM : ∀ v ∈ M, v < 2 ^ 30)
    (ha0 : a0 < 2 ^ 30) (hb0 : b0 < 2 ^ 30)
    (hg : gIter (M.length + 1) (a0 ^^^ b0) = aj ^^^ bj) :
    polymod (b0 :: (M ++ bj :: W)) = polymod (a0 :: (M ++ aj :: W)) := by
  unfold polymod
  simp only [List.foldl_cons, List.foldl_append]
  have hδ : a0 ^^^ b0 < 2 ^ 30 := Nat.xor_lt_two_pow ha0 hb0
  have hstep1 : polymodStep 1 a0 < 2 ^ 30 := polymodStep_lt (by norm_num) ha0
  have hb0e : polymodStep 1 b0 = polymodStep 1 a0 ^^^ (a0 ^^^ b0) := by
    rw [polymodStep_v 1 b0, polymodStep_v 1 a0, Nat.xor_assoc, Nat.xor_cancel_left]
  rw [hb0e, foldl_polymodStep_xor M _ _ hstep1 hδ hM]
  have hA : M.foldl polymodStep (polymodStep 1 a0) < 2 ^ 30 :=
    foldl_polymodStep_lt M _ hstep1 hM
  have hG : gIter M.length (a0 ^^^ b0) < 2 ^ 30 := gIter_lt _ hδ
  rw [polymodStep_xor bj hA hG]
  have hgs : polymodStep (gIter M.length (a0 ^^^ b0)) 0 = aj ^^^ bj := by
    rw [← gIter_succ_out, hg]
  rw [hgs]
  have hbje : polymodStep (M.foldl polymodStep (polymodStep 1 a0)) bj ^^^ (aj ^^^ bj)
      = polymodStep (M.foldl polymodStep (polymodStep 1 a0)) aj := by
    rw [polymodStep_v _ bj, polymodStep_v _ aj, Nat.xor_assoc,
      Nat.xor_comm aj bj, Nat.xor_cancel_left]
  rw [hbje]

/-- Evaluation of `decode` when the 5-bit stage succeeds and the payload
symbols convert back. -/
lemma decode_of_structured (bech hrp : List Char) (ds bs : List Nat)
    (h : decodeTo5BitArray bech = .ok (some (hrp, ds)))
    (h2 : from5Bit ds = .ok bs) :
    decode bech = .ok (some (hrp, bs)) := by
  unfold decode
  rw [h]
  simp only []
  rw [h2]

/-- A human readable code of 1022 copies of one letter, empty payload:
substituting the first letter by a character of a different 32-code-point
block whose injected XOR difference reproduces itself after 1023 polymod
steps leaves the checksum valid, so the decoder accepts the altered
string and returns the altered human readable code. -/
lemma replicate_substitution_accepted (x e : Char)
    (hx1 : 97 ≤ x.toNat) (hx2 : x.toNat ≤ 122) (hle : lowerChar e = e)
    (hg : gIter 1023 (((x.toNat >>> 5) % 256) ^^^ ((e.toNat >>> 5) % 256))
        = (x.toNat &&& 31) ^^^ (e.toNat &&& 31)) :
    decode ((encode (List.replicate 1022 x) []).set 0 e)
      = .ok (some (e :: List.replicate 1021 x, [])) := by
  have hxlow : lowerChar x = x := lowerChar_lower hx1 hx2
  have hcs32 : ∀ v ∈ createChecksum (List.replicate 1022 x) [], v < 32 :=
    createChecksum_lt _ _
  have hcslen : (createChecksum (List.replicate 1022 x) []).length = 6 :=
    createChecksum_length _ _
  have hshape : encode (List.replicate 1022 x) []
      = List.replicate 1022 x ++ SEPARATOR
          :: ((createChecksum (List.replicate 1022 x) []).map
              (fun d => CHARSET.getD d ' ')) := by
    rw [encode_shape, to5Bit_nil, List.nil_append]
  have hrep1022 : List.replicate 1022 x = x :: List.replicate 1021 x := by
    have h21 : (1022 : Nat) = 1021 + 1 := by norm_num
    rw [h21, List.replicate_succ]
  have hset : (encode (List.replicate 1022 x) []).set 0 e
      = (e :: List.replicate 1021 x) ++ SEPARATOR
          :: ((createChecksum (List.replicate 1022 x) []).map
              (fun d => CHARSET.getD d ' ')) := by
    rw [hshape, List.set_append_left _ _
      (by rw [List.length_replicate]; norm_num : (0 : Nat) < (List.replicate 1022 x).length),
      hrep1022, List.set_cons_zero]
  have hl' : ∀ c ∈ e :: List.replicate 1021 x, lowerChar c = c := by
    intro c hc
    rcases List.mem_cons.mp hc with h | h
    · subst h
      exact hle
    · rw [List.eq_of_mem_replicate h]
      exact hxlow
  have hmem : ∀ c ∈ (createChecksum (List.replicate 1022 x) []).map
      (fun d => CHARSET.getD d ' '), c ∈ CHARSET := by
    intro c hc
    obtain ⟨d, hd, rfl⟩ := List.mem_map.mp hc
    exact charset_getD_mem d (hcs32 d hd)
  have h6 : 6 ≤ ((createChecksum (List.replicate 1022 x) []).map
      (fun d => CHARSET.getD d ' ')).length := by
    rw [List.length_map, hcslen]
  have hread : readDataChars ((createChecksum (List.replicate 1022 x) []).map
      (fun d => CHARSET.getD d ' '))
      = .ok (createChecksum (List.replicate 1022 x) []) :=
    readDataChars_map _ hcs32
  have hver : verifyChecksum (List.replicate 1022 x)
      (createChecksum (List.replicate 1022 x) []) = true := by
    have h := verifyChecksum_create (List.replicate 1022 x) [] (by simp)
    rw [List.nil_append] at h
    exact h
  have h1 : polymod (humanReadablePartExpand (List.replicate 1022 x)
      ++ createChecksum (List.replicate 1022 x) []) = 1 := by
    unfold verifyChecksum at hver
    exact of_decide_eq_true hver
  have hax : (x.toNat >>> 5) % 256 < 2 ^ 30 :=
    lt_of_lt_of_le (Nat.mod_lt _ (by norm_num)) (by norm_num)
  have hbe : (e.toNat >>> 5) % 256 < 2 ^ 30 :=
    lt_of_lt_of_le (Nat.mod_lt _ (by norm_num)) (by norm_num)
  have hM : ∀ v ∈ List.replicate 1021 ((x.toNat >>> 5) % 256) ++ [0], v < 2 ^ 30 := by
    intro v hv
    rcases List.mem_append.mp hv with h | h
    · rw [List.eq_of_mem_replicate h]
      exact hax
    · rw [List.mem_singleton] at h
      subst h
      norm_num
  have hexpand : humanReadablePartExpand (List.replicate 1022 x)
      = List.replicate 1022 ((x.toNat >>> 5) % 256) ++ [0]
        ++ List.replicate 1022 (x.toNat &&& 31) := by
    simp only [humanReadablePartExpand, List.map_replicate]
  have hexpand' : humanReadablePartExpand (e :: List.replicate 1021 x)
      = (((e.toNat >>> 5) % 256) :: List.replicate 1021 ((x.toNat >>> 5) % 256))
        ++ [0] ++ ((e.toNat &&& 31) :: List.replicate 1021 (x.toNat &&& 31)) := by
    simp only [humanReadablePartExpand, List.map_cons, List.map_replicate]
  have hLA : humanReadablePartExpand (List.replicate 1022 x)
      ++ createChecksum (List.replicate 1022 x) []
      = ((x.toNat >>> 5) % 256)
          :: ((List.replicate 1021 ((x.toNat >>> 5) % 256) ++ [0])
            ++ (x.toNat &&& 31)
              :: (List.replicate 1021 (x.toNat &&& 31)
                ++ createChecksum (List.replicate 1022 x) [])) := by
    rw [hexpand]
    have hr1 : List.replicate 1022 ((x.toNat >>> 5) % 256)
        = ((x.toNat >>> 5) % 256) :: List.replicate 1021 ((x.toNat >>> 5) % 256) := by
      have h : (1022 : Nat) = 1021 + 1 := by norm_num
      rw [h, List.replicate_succ]
    have hr2 : List.replicate 1022 (x.toNat &&& 31)
        = (x.toNat &&& 31) :: List.replicate 1021 (x.toNat &&& 31) := by
      have h : (1022 : Nat) = 1021 + 1 := by norm_num
      rw [h, List.replicate_succ]
    rw [hr1, hr2]
    simp only [List.append_assoc, List.cons_append, List.nil_append]
  have hLB : humanReadablePartExpand (e :: List.replicate 1021 x)
      ++ createChecksum (List.replicate 1022 x) []
      = ((e.toNat >>> 5) % 256)
          :: ((List.replicate 1021 ((x.toNat >>> 5) % 256) ++ [0])
            ++ (e.toNat &&& 31)
              :: (List.replicate 1021 (x.toNat &&& 31)
                ++ createChecksum (List.replicate 1022 x) [])) := by
    rw [hexpand']
    simp only [List.append_assoc, List.cons_append, List.nil_append]
  have hMlen : (List.replicate 1021 ((x.toNat >>> 5) % 256) ++ [0]).length = 1022 := by
    rw [List.length_append, List.length_replicate]
    rfl
  have hg' : gIter ((List.replicate 1021 ((x.toNat >>> 5) % 256) ++ [0]).length + 1)
      (((x.toNat >>> 5) % 256) ^^^ ((e.toNat >>> 5) % 256))
      = (x.toNat &&& 31) ^^^ (e.toNat &&& 31) := by
    rw [hMlen]
    exact hg
  have hpoly : polymod (humanReadablePartExpand (e :: List.replicate 1021 x)
      ++ createChecksum (List.replicate 1022 x) []) = 1 := by
    rw [hLB, polymod_two_changes _ _ _ _ _ _ hM hax hbe hg', ← hLA]
    exact h1
  have hver' : verifyChecksum (e :: List.replicate 1021 x)
      (createChecksum (List.replicate 1022 x) []) = true := by
    unfold verifyChecksum
    exact decide_eq_true hpoly
  have htake : (createChecksum (List.replicate 1022 x) []).take
      ((createChecksum (List.replicate 1022 x) []).length - 6) = [] := by
    rw [hcslen, Nat.sub_self, List.take_zero]
  have hfinal : decodeTo5BitArray ((encode (List.replicate 1022 x) []).set 0 e)
      = .ok (some (e :: List.replicate 1021 x, [])) := by
    rw [hset, decodeTo5BitArray_structured (e :: List.replicate 1021 x) _
      (createChecksum (List.replicate 1022 x) []) hl' (List.cons_ne_nil _ _) hmem h6 hread]
    rw [if_pos hver', htake]
  exact decode_of_structured _ _ _ _ hfinal from5Bit_nil

/-- With the human readable code r repeated 1022 times and an empty
payload, substituting the leading r by the alphabet character 0 is
accepted by the decoder. -/
lemma substitution_undetected_r0 :
    decode ((encode (List.replicate 1022 'r') []).set 0 '0')
      = .ok (some ('0' :: List.replicate 1021 'r', [])) := by
  apply replicate_substitution_accepted 'r' '0' (by decide) (by decide) (by decide)
  show gIter 1023 2 = 2
  exact gIter_1023_two

/-- With the human readable code z repeated 1022 times and an empty
payload, substituting the leading z by the left bracket is accepted by
the decoder. -/
lemma substitution_undetected_zbracket :
    decode ((encode (List.replicate 1022 'z') []).set 0 '[')
      = .ok (some ('[' :: List.replicate 1021 'z', [])) := by
  apply replicate_substitution_accepted 'z' '[' (by decide) (by decide) (by decide)
  show gIter 1023 1 = 1
  exact gIter_1023_one

/-- Setting an entry of a list to the value it already holds is the
identity. -/
lemma set_self_of_getElem {α : Type} (l : List α) (k : Nat) (a : α) (hk : k < l.length)
    (h : l[k] = a) : l.set k a = l := by
  subst h
  apply List.ext_getElem?
  intro n
  rw [List.getElem?_set]
  split
  · rename_i he
    subst he
    simp [List.getElem?_eq_getElem hk]
  · rfl

/-- Substituting one character of the human readable part by a different
character of the 32-code-point block 96-127 (the block holding the
lowercase letters) always breaks the checksum: only the low 5 bits of the
character change, in exactly one entry of the expanded stream. -/
lemma substitution_in_hrp_detected (hrp : List Char) (bytes : List Nat) (k : Nat) (c : Char)
    (hhrp : ∀ ch ∈ hrp, 97 ≤ ch.toNat ∧ ch.toNat ≤ 122)
    (hb : ∀ x ∈ bytes, x < 256)
    (hk : k < hrp.length) (hc1 : 96 ≤ c.toNat) (hc2 : c.toNat ≤ 127)
    (hne : c ≠ hrp[k]) :
    decode ((encode hrp bytes).set k c) = .ok none := by
  obtain ⟨h32s, hlen5, hval5⟩ := to5Bit_spec bytes hb
  have hcs32 : ∀ v ∈ createChecksum hrp (to5Bit bytes), v < 32 :=
    createChecksum_lt hrp (to5Bit bytes)
  have hall32 : ∀ v ∈ to5Bit bytes ++ createChecksum hrp (to5Bit bytes), v < 32 := by
    intro v hv
    rcases List.mem_append.mp hv with hv | hv
    · exact h32s v hv
    · exact hcs32 v hv
  have hcslen : (createChecksum hrp (to5Bit bytes)).length = 6 :=
    createChecksum_length hrp (to5Bit bytes)
  have h6 : 6 ≤ (to5Bit bytes ++ createChecksum hrp (to5Bit bytes)).length := by
    rw [List.length_append, hcslen]
    omega
  have hver : verifyChecksum hrp (to5Bit bytes ++ createChecksum hrp (to5Bit bytes)) = true :=
    verifyChecksum_create hrp (to5Bit bytes) (fun v hv => by
      have := h32s v hv
      omega)
  have hkmem : hrp[k] ∈ hrp := by
    have := List.get_mem hrp k hk
    simpa using this
  have hrk1 : 97 ≤ (hrp[k]).toNat := (hhrp _ hkmem).1
  have hrk2 : (hrp[k]).toNat ≤ 122 := (hhrp _ hkmem).2
  have hsets : (encode hrp bytes).set k c
      = hrp.set k c ++ SEPARATOR
          :: ((to5Bit bytes ++ createChecksum hrp (to5Bit bytes)).map
              (fun d => CHARSET.getD d ' ')) := by
    rw [encode_shape, List.set_append_left _ _ hk]
  have hl' : ∀ ch ∈ hrp.set k c, lowerChar ch = ch := by
    intro ch hch
    rcases List.mem_or_eq_of_mem_set hch with h | h
    · exact lowerChar_lower (hhrp ch h).1 (hhrp ch h).2
    · subst h
      exact lowerChar_eq_self (Or.inr (by omega))
  have hrp'0 : hrp.set k c ≠ [] := by
    apply List.length_pos.mp
    rw [List.length_set]
    omega
  have hmem : ∀ ch ∈ (to5Bit bytes ++ createChecksum hrp (to5Bit bytes)).map
      (fun d => CHARSET.getD d ' '), ch ∈ CHARSET := by
    intro ch hch
    obtain ⟨d, hd, rfl⟩ := List.mem_map.mp hch
    exact charset_getD_mem d (hall32 d hd)
  have h6' : 6 ≤ ((to5Bit bytes ++ createChecksum hrp (to5Bit bytes)).map
      (fun d => CHARSET.getD d ' ')).length := by
    rw [List.length_map]
    exact h6
  have hread := readDataChars_map _ hall32
  have hklt' : k < (hrp.map (fun ch => ch.toNat &&& 31)).length := by
    rw [List.length_map]
    exact hk
  have hgetm : (hrp.map (fun ch => ch.toNat &&& 31))[k] = (hrp[k]).toNat &&& 31 := by
    rw [List.getElem_map]
  have hdecomp : hrp.map (fun ch => ch.toNat &&& 31)
      = (hrp.map (fun ch => ch.toNat &&& 31)).take k
        ++ ((hrp[k]).toNat &&& 31) :: (hrp.map (fun ch => ch.toNat &&& 31)).drop (k + 1) := by
    conv_lhs => rw [← List.take_append_drop k (hrp.map (fun ch => ch.toNat &&& 31))]
    congr 1
    rw [← hgetm]
    exact (List.getElem_cons_drop _ k hklt').symm
  have hsetm : (hrp.map (fun ch => ch.toNat &&& 31)).set k (c.toNat &&& 31)
      = (hrp.map (fun ch => ch.toNat &&& 31)).take k
        ++ (c.toNat &&& 31) :: (hrp.map (fun ch => ch.toNat &&& 31)).drop (k + 1) :=
    List.set_eq_take_cons_drop _ hklt'
  have hhk : ((hrp[k]).toNat >>> 5) % 256 = 3 := by
    have h5 : (hrp[k]).toNat >>> 5 = (hrp[k]).toNat / 32 := by
      rw [Nat.shiftRight_eq_div_pow]
    omega
  have hhc : (c.toNat >>> 5) % 256 = 3 := by
    have h5 : c.toNat >>> 5 = c.toNat / 32 := by
      rw [Nat.shiftRight_eq_div_pow]
    omega
  have hklth : k < (hrp.map (fun ch => (ch.toNat >>> 5) % 256)).length := by
    rw [List.length_map]
    exact hk
  have hhigh_self : (hrp.map (fun ch => (ch.toNat >>> 5) % 256)).set k ((c.toNat >>> 5) % 256)
      = hrp.map (fun ch => (ch.toNat >>> 5) % 256) := by
    apply set_self_of_getElem _ _ _ hklth
    rw [List.getElem_map, hhk, hhc]
  have hexpset : humanReadablePartExpand (hrp.set k c)
      = hrp.map (fun ch => (ch.toNat >>> 5) % 256) ++ [0]
        ++ ((hrp.map (fun ch => ch.toNat &&& 31)).take k
            ++ (c.toNat &&& 31) :: (hrp.map (fun ch => ch.toNat &&& 31)).drop (k + 1)) := by
    simp only [humanReadablePartExpand, List.map_set]
    rw [hhigh_self, hsetm]
  have hexpold : humanReadablePartExpand hrp
      = hrp.map (fun ch => (ch.toNat >>> 5) % 256) ++ [0]
        ++ ((hrp.map (fun ch => ch.toNat &&& 31)).take k
            ++ ((hrp[k]).toNat &&& 31)
              :: (hrp.map (fun ch => ch.toNat &&& 31)).drop (k + 1)) := by
    simp only [humanReadablePartExpand]
    rw [← hdecomp]
  have hEb : ∀ v ∈ hrp.map (fun ch => (ch.toNat >>> 5) % 256) ++ [0], v < 2 ^ 30 := by
    intro v hv
    rcases List.mem_append.mp hv with hv | hv
    · obtain ⟨ch, _, rfl⟩ := List.mem_map.mp hv
      exact lt_of_lt_of_le (Nat.mod_lt _ (by norm_num)) (by norm_num)
    · simp at hv
      subst hv
      norm_num
  have hub : ∀ v ∈ (hrp.map (fun ch => ch.toNat &&& 31)).take k, v < 2 ^ 30 := by
    intro v hv
    obtain ⟨ch, _, rfl⟩ := List.mem_map.mp (List.mem_of_mem_take hv)
    exact lt_of_le_of_lt Nat.and_le_right (by norm_num)
  have hwb : ∀ v ∈ (hrp.map (fun ch => ch.toNat &&& 31)).drop (k + 1)
      ++ (to5Bit bytes ++ createChecksum hrp (to5Bit bytes)), v < 2 ^ 30 := by
    intro v hv
    rcases List.mem_append.mp hv with hv | hv
    · obtain ⟨ch, _, rfl⟩ := List.mem_map.mp (List.mem_of_mem_drop hv)
      exact lt_of_le_of_lt Nat.and_le_right (by norm_num)
    · exact lt_of_lt_of_le (hall32 v hv) (by norm_num)
  have hdo : (hrp[k]).toNat &&& 31 < 32 := lt_of_le_of_lt Nat.and_le_right (by norm_num)
  have hdn : c.toNat &&& 31 < 32 := lt_of_le_of_lt Nat.and_le_right (by norm_num)
  have hand31 : ∀ m : Nat, m &&& 31 = m % 32 := by
    intro m
    have h31 : (31 : Nat) = 2 ^ 5 - 1 := by norm_num
    rw [h31, Nat.and_pow_two_sub_one_eq_mod]
  have hdnew : c.toNat &&& 31 ≠ (hrp[k]).toNat &&& 31 := by
    rw [hand31, hand31]
    intro he
    apply hne
    have htn : c.toNat = (hrp[k]).toNat := by omega
    exact Char.eq_of_val_eq (UInt32.toNat.inj htn)
  have hold1 : polymod (humanReadablePartExpand hrp
      ++ (to5Bit bytes ++ createChecksum hrp (to5Bit bytes))) = 1 := by
    unfold verifyChecksum at hver
    exact of_decide_eq_true hver
  have hlist1 : (hrp.map (fun ch => (ch.toNat >>> 5) % 256) ++ [0])
      ++ ((hrp.map (fun ch => ch.toNat &&& 31)).take k
        ++ ((hrp[k]).toNat &&& 31)
          :: ((hrp.map (fun ch => ch.toNat &&& 31)).drop (k + 1)
            ++ (to5Bit bytes ++ createChecksum hrp (to5Bit bytes))))
      = humanReadablePartExpand hrp
        ++ (to5Bit bytes ++ createChecksum hrp (to5Bit bytes)) := by
    rw [hexpold]
    simp [List.append_assoc]
  have hold2 : polymod ((hrp.map (fun ch => (ch.toNat >>> 5) % 256) ++ [0])
      ++ ((hrp.map (fun ch => ch.toNat &&& 31)).take k
        ++ ((hrp[k]).toNat &&& 31)
          :: ((hrp.map (fun ch => ch.toNat &&& 31)).drop (k + 1)
            ++ (to5Bit bytes ++ createChecksum hrp (to5Bit bytes))))) = 1 := by
    rw [hlist1]
    exact hold1
  have hnew := polymod_substitution (hrp.map (fun ch => (ch.toNat >>> 5) % 256) ++ [0])
    ((hrp.map (fun ch => ch.toNat &&& 31)).take k)
    ((hrp.map (fun ch => ch.toNat &&& 31)).drop (k + 1)
      ++ (to5Bit bytes ++ createChecksum hrp (to5Bit bytes)))
    ((hrp[k]).toNat &&& 31) (c.toNat &&& 31)
    hEb hub hwb hdo hdn hdnew hold2
  have hlist2 : humanReadablePartExpand (hrp.set k c)
      ++ (to5Bit bytes ++ createChecksum hrp (to5Bit bytes))
      = (hrp.map (fun ch => (ch.toNat >>> 5) % 256) ++ [0])
        ++ ((hrp.map (fun ch => ch.toNat &&& 31)).take k
          ++ (c.toNat &&& 31)
            :: ((hrp.map (fun ch => ch.toNat &&& 31)).drop (k + 1)
              ++ (to5Bit bytes ++ createChecksum hrp (to5Bit bytes)))) := by
    rw [hexpset]
    simp [List.append_assoc]
  have hvfalse : verifyChecksum (hrp.set k c)
      (to5Bit bytes ++ createChecksum hrp (to5Bit bytes)) = false := by
    unfold verifyChecksum
    rw [hlist2]
    exact decide_eq_false hnew
  unfold decode
  rw [hsets, decodeTo5BitArray_structured (hrp.set k c) _
    (to5Bit bytes ++ createChecksum hrp (to5Bit bytes)) hl' hrp'0 hmem h6' hread]
  rw [hvfalse, if_neg Bool.false_ne_true]

end Bech32

namespace Bech32

/-- C7 (amended): for every valid encoded string, substituting one character
by a different one is answered by the soft failure in both provable
regimes — at any position strictly after the separator when the substitute
is an alphabet character, and at any position of the human readable part
when the substitute lies in the 32-code-point block 96-127 that holds the
lowercase letters. -/
theorem substitution_soft_failure (hrp : List Char) (bytes : List Nat) (i : Nat) (c : Char)
    (hhrp : ∀ ch ∈ hrp, 97 ≤ ch.toNat ∧ ch.toNat ≤ 122) (hrp0 : hrp ≠ [])
    (hb : ∀ x ∈ bytes, x < 256)
    (hcase : (hrp.length + 1 ≤ i ∧ i < (encode hrp bytes).length ∧ c ∈ CHARSET)
      ∨ (i < hrp.length ∧ 96 ≤ c.toNat ∧ c.toNat ≤ 127))
    (hne : (encode hrp bytes).get? i ≠ some c) :
    decode ((encode hrp bytes).set i c) = .ok none := by
  rcases hcase with ⟨hi, hilt, hc⟩ | ⟨hi, hc1, hc2⟩
  · exact substitution_after_separator_detected hrp bytes i c hhrp hrp0 hb hi hilt hc hne
  · have hget : (encode hrp bytes).get? i = some (hrp[i]) := by
      rw [encode_shape, List.get?_append hi, List.get?_eq_get hi]
      rfl
    have hnec : c ≠ hrp[i] := by
      intro he
      apply hne
      rw [hget, he]
    exact substitution_in_hrp_detected hrp bytes i c hhrp hb hi hc1 hc2 hnec

theorem substitution_soft_failure_witness :
    decode ((encode ['a'] []).set 0 'q') = .ok none :=
  substitution_soft_failure ['a'] [] 0 'q' (by decide) (by decide) (by decide)
    (Or.inr (by decide)) (by decide)

end Bech32

namespace Bech32

/-- C7 counterexample: single-character substitution in a valid encoded
string is not always answered by the soft failure.  A non-alphabet
character after the separator throws the invalid-character error;
replacing the separator itself by an alphabet character throws the
missing-separator error; and a substitution in the human readable part
that crosses 32-code-point blocks can defeat the checksum outright: with
the letter r repeated 1022 times, replacing the leading r by the alphabet
character 0 — and with z repeated 1022 times, replacing the leading z by
the left bracket — produces a string that decode accepts, returning the
altered human readable code. -/
theorem substitution_claim_refuted :
    decode ((encode ['a'] []).set 2 'b') = .error (.invalidCharacterError 'b') ∧
    (encode ['a'] []).get? 2 = some '2' ∧
    'b' ∉ CHARSET ∧
    decode ((encode ['a'] []).set 1 'q') = .error .missingSeparatorError ∧
    (encode ['a'] []).get? 1 = some SEPARATOR ∧
    'q' ∈ CHARSET ∧
    decode ((encode (List.replicate 1022 'r') []).set 0 '0')
      = .ok (some ('0' :: List.replicate 1021 'r', [])) ∧
    (encode (List.replicate 1022 'r') []).get? 0 = some 'r' ∧
    '0' ∈ CHARSET ∧
    decode ((encode (List.replicate 1022 'z') []).set 0 '[')
      = .ok (some ('[' :: List.replicate 1021 'z', [])) ∧
    (encode (List.replicate 1022 'z') []).get? 0 = some 'z' :=
  ⟨by rfl, by rfl, by decide, by rfl, by rfl, by decide,
    substitution_undetected_r0, by rfl, by decide,
    substitution_undetected_zbracket, by rfl⟩

end Bech32
